import Mathlib

/-!
Verification of the lobby state machine of the Midnight-Murder game server
(`src/server.ts`).  The TypeScript source is shallowly embedded: every
in-place mutation of a lobby becomes a pure function from the old state to
the new state, the global `lobbies` record becomes a function from lobby
codes to optional lobbies, and every call to `Math.random` / `uuidv4`
becomes an explicit parameter (a natural number, a string, or a stream of
those), so each theorem quantifies over all possible random draws.
-/

namespace Midnight

/-- Hidden role of a player (`type Role` in the source). -/
inductive Role
  | killer
  | witness
  | investigator
  | forensics
deriving DecidableEq

/-- Mini-game tag of a task (`type TaskType` in the source). -/
inductive TaskType
  | word_fuse
  | wordle
  | backwards_feud
  | taxi_jam
deriving DecidableEq

/-- Phase of a lobby (the `status` union type of `Lobby` in the source). -/
inductive Status
  | lobby
  | playing
  | discussion
  | voting
  | witness_guessing
  | game_over
deriving DecidableEq

/-- Value of the `winner` field (`"killer" | "investigators" | null`). -/
inductive Winner
  | killer
  | investigators
deriving DecidableEq

/-- Private attribute profile of a player (the `attributes` record of
`interface Player`); field order matches the object literal returned by
`generateAttributes`, which is also the `Object.keys` order used by
`generateClue`. -/
structure Attributes where
  handedness : String
  hairColor : String
  shoeType : String
  tshirtDesign : String
  occupation : String
  height : String
  accessory : String
deriving DecidableEq

/-- A player (`interface Player`).  `role = none` models `role: null`,
`votedFor = none` models `votedFor: null`. -/
structure Player where
  id : String
  name : String
  role : Option Role
  attributes : Attributes
  isHost : Bool
  votedFor : Option String
  x : Int
  y : Int
  color : String
  hasStolenClue : Bool
deriving DecidableEq

/-- A clue (`interface Clue`). -/
structure Clue where
  id : String
  text : String
  isTampered : Bool
  foundBy : String
deriving DecidableEq

/-- A task (`interface GameTask`). -/
structure GameTask where
  id : String
  x : Int
  y : Int
  type : TaskType
  completed : Bool
  lockedFor : List String
deriving DecidableEq

/-- A lobby (`interface Lobby`).  `startTime`/`endTime` hold the epoch
milliseconds recorded by `Date.now()`. -/
structure Lobby where
  id : String
  status : Status
  players : List Player
  clues : List Clue
  tasks : List GameTask
  startTime : Option Int
  endTime : Option Int
  winner : Option Winner
deriving DecidableEq

/-- The global `lobbies: Record<string, Lobby>` store, as a map from lobby
codes to optional lobbies. -/
def Registry : Type := String → Option Lobby

/-- Point update of the registry (assignment to / deletion of a key of the
`lobbies` record). -/
def updateReg (reg : Registry) (code : String) (v : Option Lobby) : Registry :=
  fun c => if c = code then v else reg c

/-- The apostrophe character, used by the height strings (written via its
code point so that no string literal carries a quote). -/
def apostropheChar : Char := Char.ofNat 39

/-- The double-quote character. -/
def dquoteChar : Char := Char.ofNat 34

/-- Height string of the source, i.e. `` `${feet}'${inches}"` ``. -/
def heightString (feet inches : Nat) : String :=
  toString feet ++ String.singleton apostropheChar ++ toString inches
    ++ String.singleton dquoteChar

/-- Constant table `HANDEDNESS`. -/
def handednessTable : List String := ["Left", "Right"]

/-- Constant table `HAIR_COLORS`. -/
def hairColorsTable : List String := ["Black", "Brown", "Blonde", "Red", "Gray"]

/-- Constant table `SHOE_TYPES`. -/
def shoeTypesTable : List String :=
  ["Boots", "Running Shoes", "Flip Flops", "Loafers", "Sneakers", "High Heels"]

/-- Constant table `TSHIRT_DESIGNS`. -/
def tshirtDesignsTable : List String :=
  ["Plain", "Striped", "Polka Dot", "Graphic", "Tie-Dye", "Plaid", "Camo",
   "Floral", "Abstract", "Geometric"]

/-- Constant table `OCCUPATIONS`. -/
def occupationsTable : List String :=
  ["Teacher", "Doctor", "Engineer", "Artist", "Chef", "Police", "Firefighter",
   "Musician", "Writer", "Actor", "Scientist", "Athlete", "Pilot", "Lawyer",
   "Farmer"]

/-- Constant table `ACCESSORIES`. -/
def accessoriesTable : List String :=
  ["Glasses", "Hat", "Watch", "Necklace", "Earrings", "None"]

/-- Constant table `PLAYER_COLORS`. -/
def playerColorsTable : List String :=
  ["#ef4444", "#3b82f6", "#10b981", "#f59e0b", "#8b5cf6", "#ec4899",
   "#14b8a6", "#f97316", "#64748b", "#84cc16"]

/-- The `CLUE_MAP` vocabulary table; `none` models a missing key
(`undefined` lookup). -/
def clueMap (v : String) : Option (List String) :=
  match v with
  | "Left" => some (["Southpaw", "Sinister", "Scissors"])
  | "Right" => some (["Standard", "Dexterous", "Common"])
  | "Black" => some (["Midnight", "Raven", "Darkness"])
  | "Brown" => some (["Earth", "Chestnut", "Chocolate"])
  | "Blonde" => some (["Golden", "Sunlight", "Straw"])
  | "Red" => some (["Fire", "Crimson", "Ginger"])
  | "Gray" => some (["Silver", "Wisdom", "Ash"])
  | "Boots" => some (["Winter", "Heavy", "Mud"])
  | "Running Shoes" => some (["Athletic", "Laces", "Track"])
  | "Flip Flops" => some (["Summer", "Beach", "Toes"])
  | "Loafers" => some (["Casual", "Slip-on", "Leather"])
  | "Sneakers" => some (["Street", "Comfort", "Rubber"])
  | "High Heels" => some (["Formal", "Tall", "Click-clack"])
  | "Plain" => some (["Simple", "Basic", "Unadorned"])
  | "Striped" => some (["Lines", "Zebra", "Parallel"])
  | "Polka Dot" => some (["Spots", "Circles", "Retro"])
  | "Graphic" => some (["Picture", "Logo", "Print"])
  | "Tie-Dye" => some (["Colorful", "Hippie", "Swirl"])
  | "Plaid" => some (["Lumberjack", "Squares", "Flannel"])
  | "Camo" => some (["Hidden", "Military", "Forest"])
  | "Floral" => some (["Nature", "Garden", "Blossom"])
  | "Abstract" => some (["Artistic", "Confusing", "Shapes"])
  | "Geometric" => some (["Math", "Angles", "Sharp"])
  | "Teacher" => some (["Chalk", "Grades", "School"])
  | "Doctor" => some (["Stethoscope", "Medicine", "Hospital"])
  | "Engineer" => some (["Math", "Build", "Design"])
  | "Artist" => some (["Paint", "Canvas", "Creative"])
  | "Chef" => some (["Kitchen", "Food", "Knife"])
  | "Police" => some (["Badge", "Law", "Siren"])
  | "Firefighter" => some (["Hose", "Rescue", "Flames"])
  | "Musician" => some (["Notes", "Instrument", "Stage"])
  | "Writer" => some (["Pen", "Paper", "Words"])
  | "Actor" => some (["Stage", "Drama", "Camera"])
  | "Scientist" => some (["Lab", "Microscope", "Research"])
  | "Athlete" => some (["Sweat", "Sports", "Medal"])
  | "Pilot" => some (["Sky", "Airplane", "Clouds"])
  | "Lawyer" => some (["Court", "Suit", "Judge"])
  | "Farmer" => some (["Tractor", "Crops", "Dirt"])
  | "Glasses" => some (["Vision", "Lenses", "Frames"])
  | "Hat" => some (["Headwear", "Shade", "Cap"])
  | "Watch" => some (["Time", "Wrist", "Tick"])
  | "Necklace" => some (["Jewelry", "Chain", "Pendant"])
  | "Earrings" => some (["Piercing", "Lobes", "Studs"])
  | "None" => some (["Bare", "Minimalist", "Empty"])
  | _ => none

/-- Decimal value of the leading digit run of a character list; `none` when
there is no digit (`parseInt` returning `NaN`). -/
def digitsVal (cs : List Char) : Option Nat :=
  let ds := cs.takeWhile (fun c => c.isDigit)
  if ds.isEmpty then none
  else some (ds.foldl (fun n c => n * 10 + (c.toNat - 48)) 0)

/-- JavaScript `parseInt` on a decimal string: skip leading whitespace, an
optional sign, then read a digit run; `none` models `NaN`.  (The hexadecimal
`0x` auto-detection of `parseInt` is not modelled; it cannot trigger on the
strings this program parses, which start with a digit run or are free-form
attribute text.) -/
def jsParseInt (s : String) : Option Int :=
  let cs := s.data.dropWhile (fun c => c = ' ' ∨ c = Char.ofNat 9 ∨
    c = Char.ofNat 10 ∨ c = Char.ofNat 13)
  match cs with
  | c :: rest =>
    if c = '-' then (digitsVal rest).map (fun n => -(n : Int))
    else if c = '+' then (digitsVal rest).map (fun n => (n : Int))
    else (digitsVal cs).map (fun n => (n : Int))
  | [] => none

/-- Function `getHeightClue` of the source: bucket the feet part of a
height string.  A failed parse (`NaN`) falsifies all three comparisons and
falls through to `"Unknown"`. -/
def getHeightClue (heightStr : String) : String :=
  match jsParseInt ((heightStr.splitOn (String.singleton apostropheChar)).headD ("")) with
  | none => "Unknown"
  | some feet =>
    if feet < 5 then "Short"
    else if feet = 5 then "Average"
    else "Tall"

/-- Function `generateAttributes` of the source; each `Math.random` draw is
an explicit natural-number parameter reduced modulo the table size. -/
def generateAttributes (rHand rHair rShoe rTshirt rOcc rHeight rAcc : Nat) :
    Attributes :=
  let heightInches := rHeight % 37 + 48
  let feet := heightInches / 12
  let inches := heightInches % 12
  { handedness := handednessTable.getD (rHand % handednessTable.length) ("")
    hairColor := hairColorsTable.getD (rHair % hairColorsTable.length) ("")
    shoeType := shoeTypesTable.getD (rShoe % shoeTypesTable.length) ("")
    tshirtDesign :=
      tshirtDesignsTable.getD (rTshirt % tshirtDesignsTable.length) ("")
    occupation := occupationsTable.getD (rOcc % occupationsTable.length) ("")
    height := heightString feet inches
    accessory := accessoriesTable.getD (rAcc % accessoriesTable.length) ("") }

/-- Replace the first element satisfying `p` by its image under `f`.  This
is the effect of the ubiquitous source pattern `const x = list.find(...)`
followed by an in-place mutation of `x`. -/
def mapFirst (p : α → Bool) (f : α → α) : List α → List α
  | [] => []
  | a :: as => if p a then f a :: as else a :: mapFirst p f as

/-- Predicate `p.id === someId` used by every `players.find` call. -/
def pid (i : String) : Player → Bool := fun p => decide (p.id = i)

/-- Predicate `t.id === taskId` used by the task handlers. -/
def tidP (i : String) : GameTask → Bool := fun t => decide (t.id = i)

/-- Predicate `p.role === "killer"`. -/
def isKillerP : Player → Bool := fun p => decide (p.role = some Role.killer)

/-- Role pool built at the top of `assignRoles`: `["killer", "witness",
"investigator"]`, plus `"forensics"` when at least four players, padded
with `"investigator"` up to the player count. -/
def rolePool (n : Nat) : List Role :=
  let roles : List Role := [Role.killer, Role.witness, Role.investigator]
  let roles := if 4 ≤ n then roles ++ [Role.forensics] else roles
  roles ++ List.replicate (n - roles.length) Role.investigator

/-- Simultaneous swap `[roles[i], roles[j]] = [roles[j], roles[i]]`; out of
bounds indices leave the list unchanged (they never occur in the shuffle). -/
def swapL (l : List α) (i j : Nat) : List α :=
  match l[i]?, l[j]? with
  | some a, some b => (l.set i b).set j a
  | _, _ => l

/-- Descending Fisher-Yates loop `for (let i = len-1; i > 0; i--)`; the
draw `Math.floor(Math.random() * (i + 1))` at index `i` is modelled as
`rand i % (i + 1)`. -/
def fisherGo (rand : Nat → Nat) : List α → Nat → List α
  | l, 0 => l
  | l, i + 1 => fisherGo rand (swapL l (i + 1) (rand (i + 1) % (i + 2))) i

/-- In-place shuffle of `assignRoles`. -/
def shuffle (l : List α) (rand : Nat → Nat) : List α :=
  fisherGo rand l (l.length - 1)

/-- Positional role assignment `players.forEach((p, i) => p.role =
roles[i])`; a missing index (never hit at game start, where the pool size
equals the player count) assigns `undefined`, modelled as `none`. -/
def zipRoles : List Player → List Role → List Player
  | [], _ => []
  | p :: ps, [] => { p with role := none } :: zipRoles ps []
  | p :: ps, r :: rs => { p with role := some r } :: zipRoles ps rs

/-- Function `assignRoles` of the source. -/
def assignRoles (players : List Player) (rand : Nat → Nat) : List Player :=
  zipRoles players (shuffle (rolePool players.length) rand)

/-- Function `generateTasks` of the source: fifteen tasks with fresh ids and
random positions and types. -/
def generateTasks (uuid : Nat → String) (rx ry rt : Nat → Nat) :
    List GameTask :=
  (List.range 15).map (fun i =>
    { id := uuid i
      x := ((rx i % 1600 + 200 : Nat) : Int)
      y := ((ry i % 1600 + 200 : Nat) : Int)
      type := [TaskType.word_fuse, TaskType.wordle, TaskType.backwards_feud,
        TaskType.taxi_jam].getD (rt i % 4) TaskType.word_fuse
      completed := false
      lockedFor := [] })

/-- Local constant `nonKillers` of `generateClue`. -/
def nonKillersOf (lobby : Lobby) : List Player :=
  lobby.players.filter (fun p => !(isKillerP p))

/-- Target selection of `generateClue`: a tampered clue targets a random
non-killer, a truthful clue targets the killer; both branches fall back to
`lobby.players[0]` (the `|| lobby.players[0]` in the source) when the
preferred target does not exist.  `none` only when the lobby has no players
at all, in which case the source would throw. -/
def clueTarget (lobby : Lobby) (isTampered : Bool) (r : Nat) : Option Player :=
  if isTampered then
    match (nonKillersOf lobby).get? (r % (nonKillersOf lobby).length) with
    | some p => some p
    | none => lobby.players.head?
  else
    match lobby.players.find? isKillerP with
    | some p => some p
    | none => lobby.players.head?

/-- Text derivation of `generateClue` from the chosen target: pick one of
the seven attributes (in `Object.keys` order, `height` at index 5), bucket
heights, otherwise pick one of the `CLUE_MAP` phrasings, falling back to the
raw value when the table has no entry. -/
def clueTextOf (p : Player) (rAttr rPhrase : Nat) : String :=
  let vals := [p.attributes.handedness, p.attributes.hairColor,
    p.attributes.shoeType, p.attributes.tshirtDesign, p.attributes.occupation,
    p.attributes.height, p.attributes.accessory]
  let i := rAttr % 7
  let v := vals.getD i ("")
  if i = 5 then getHeightClue v
  else
    match clueMap v with
    | some cs => if 0 < cs.length then cs.getD (rPhrase % cs.length) v else v
    | none => v

/-- Function `generateClue` of the source, split into target selection and
text derivation; `none` models the `TypeError` the source would throw on an
empty player list (its callers always have a non-empty list). -/
def generateClue (lobby : Lobby) (isTampered : Bool) (r1 r2 r3 : Nat) :
    Option String :=
  (clueTarget lobby isTampered r1).map (fun p => clueTextOf p r2 r3)

/-- Result delivered through the `join_lobby` / `create_lobby` callback. -/
inductive JoinResult
  | error (msg : String)
  | ok (lobbyId : String) (playerId : String)
deriving DecidableEq

/-- Result delivered through the `steal_clue` callback. -/
inductive StealResult
  | error (msg : String)
  | message (msg : String)
deriving DecidableEq

/-- Handler `create_lobby`: allocate a fresh lobby under `code` (the random
six-character code is a parameter) seeded with the caller as host, and
answer the callback with `{lobbyId, playerId}`. -/
def createLobby (reg : Registry) (code socketId name : String)
    (attrs : Attributes) : Registry × JoinResult :=
  let newLobby : Lobby :=
    { id := code
      status := Status.lobby
      players := [{ id := socketId
                    name := name
                    role := none
                    attributes := attrs
                    isHost := true
                    votedFor := none
                    x := 1000
                    y := 1000
                    color := playerColorsTable.getD 0 ("")
                    hasStolenClue := false }]
      clues := []
      tasks := []
      startTime := none
      endTime := none
      winner := none }
  (updateReg reg code (some newLobby), JoinResult.ok code socketId)

/-- Name disambiguation loop of `join_lobby` (`while (lobby.players.some(p
=> p.name === finalName)) finalName = name + " " + counter++`).  The fuel
bounds the loop; `players.length + 2` iterations always suffice because the
candidate names are pairwise distinct and only `players.length` names can be
taken. -/
def joinNameGo (players : List Player) (base : String) :
    Nat → String → Nat → String
  | 0, cur, _ => cur
  | fuel + 1, cur, k =>
    if players.any (fun p => decide (p.name = cur)) then
      joinNameGo players base fuel (base ++ " " ++ toString k) (k + 1)
    else cur

/-- Final display name chosen by `join_lobby` for a requested name. -/
def joinName (players : List Player) (base : String) : String :=
  joinNameGo players base (players.length + 2) base 1

/-- The player object pushed by `join_lobby` (with the disambiguated final
name and the palette-cycled color).  The position jitter `1000 +
Math.random() * 100 - 50` is modelled by integer offset parameters. -/
def joinedPlayer (lobby : Lobby) (socketId name : String)
    (attrs : Attributes) (dx dy : Int) : Player :=
  { id := socketId
    name := joinName lobby.players name
    role := none
    attributes := attrs
    isHost := false
    votedFor := none
    x := 1000 + dx
    y := 1000 + dy
    color := playerColorsTable.getD
      (lobby.players.length % playerColorsTable.length) ("")
    hasStolenClue := false }

/-- Handler `join_lobby`. -/
def joinLobby (reg : Registry) (lobbyId socketId name : String)
    (attrs : Attributes) (dx dy : Int) : Registry × JoinResult :=
  match reg lobbyId with
  | none => (reg, JoinResult.error ("Lobby not found"))
  | some lobby =>
    if lobby.status ≠ Status.lobby then
      (reg, JoinResult.error ("Game already in progress"))
    else
      (updateReg reg lobbyId
        (some { lobby with players := lobby.players ++
          [joinedPlayer lobby socketId name attrs dx dy] }),
       JoinResult.ok lobbyId socketId)

/-- Promotion `lobby.players[0].isHost = true`. -/
def setHeadHost : List Player → List Player
  | [] => []
  | p :: ps => { p with isHost := true } :: ps

/-- Handler `leave_lobby`: remove the caller from the lobby; delete the
lobby when it empties, otherwise promote `players[0]` to host, but only
while the status is still `lobby`. -/
def leaveLobbyReg (reg : Registry) (lobbyId socketId : String) : Registry :=
  match reg lobbyId with
  | none => reg
  | some lobby =>
    match lobby.players.findIdx? (pid socketId) with
    | none => reg
    | some i =>
      let players := lobby.players.eraseIdx i
      if players.length = 0 then updateReg reg lobbyId none
      else
        let players :=
          if lobby.status = Status.lobby then setHeadHost players else players
        updateReg reg lobbyId (some { lobby with players := players })

/-- Handler `disconnect`: in every lobby containing the closed connection,
and only while that lobby is still in `lobby` status, remove the player,
deleting the lobby when it empties and promoting `players[0]` otherwise. -/
def disconnectReg (reg : Registry) (socketId : String) : Registry :=
  fun code =>
    match reg code with
    | none => none
    | some lobby =>
      match lobby.players.findIdx? (pid socketId) with
      | none => some lobby
      | some i =>
        if lobby.status = Status.lobby then
          let players := lobby.players.eraseIdx i
          if players.length = 0 then none
          else some { lobby with players := setHeadHost players }
        else some lobby

/-- Handler `start_game`: host-only, at least three players; assigns roles,
generates the task pool, stamps the timers and flips the status to
`playing`, all in one step.  (The source does not re-check the current
status.)  `now` is the `Date.now()` reading. -/
def startGame (lobby : Lobby) (callerId : String) (roleRand : Nat → Nat)
    (uuid : Nat → String) (rx ry rt : Nat → Nat) (now : Int) : Lobby :=
  match lobby.players.find? (pid callerId) with
  | none => lobby
  | some p =>
    if p.isHost then
      if lobby.players.length < 3 then lobby
      else
        { lobby with
          players := assignRoles lobby.players roleRand
          tasks := generateTasks uuid rx ry rt
          status := Status.playing
          startTime := some now
          endTime := some (now + 5 * 60 * 1000) }
    else lobby

/-- Handler `task_completed`: during `playing`, on a found and not yet
completed task, flip `completed`; then, when the caller is a player of the
lobby, synthesize a clue (tampered exactly when the caller is the killer)
and append it.  The flip is not undone when the caller is missing from the
player list. -/
def taskCompleted (lobby : Lobby) (callerId taskId uuid : String)
    (r1 r2 r3 : Nat) : Lobby :=
  if lobby.status = Status.playing then
    match lobby.tasks.find? (tidP taskId) with
    | none => lobby
    | some task =>
      if task.completed then lobby
      else
        let lobby1 := { lobby with
          tasks := mapFirst (tidP taskId)
            (fun t => { t with completed := true }) lobby.tasks }
        match lobby.players.find? (pid callerId) with
        | none => lobby1
        | some player =>
          let tampered := isKillerP player
          match generateClue lobby tampered r1 r2 r3 with
          | none => lobby1
          | some text =>
            { lobby1 with clues := lobby1.clues ++
                [{ id := uuid
                   text := text
                   isTampered := tampered
                   foundBy := player.id }] }
  else lobby

/-- Predicate selecting the truthful clues attributed to `targetId`
(`c.foundBy === targetPlayerId && !c.isTampered`). -/
def truthfulBy (targetId : String) : Clue → Bool :=
  fun c => decide (c.foundBy = targetId ∧ c.isTampered = false)

/-- Flip `isTampered` on the `k`-th clue (0-based) among those satisfying
`truthfulBy targetId`; this is the in-place mutation of the random element
of the `targetClues` filter result. -/
def tamperNth : List Clue → String → Nat → List Clue
  | [], _, _ => []
  | c :: cs, targetId, k =>
    if truthfulBy targetId c then
      if k = 0 then { c with isTampered := true } :: cs
      else c :: tamperNth cs targetId (k - 1)
    else c :: tamperNth cs targetId k

/-- Handler `steal_clue` on a found lobby: validate status, killer role,
one-shot flag and target existence; then either tamper a random truthful
clue of the target or plant a fabricated tampered clue, set
`hasStolenClue`, and answer the callback. -/
def stealClue (lobby : Lobby) (callerId targetId : String) (rSel : Nat)
    (uuid : String) (r1 r2 r3 : Nat) : Lobby × StealResult :=
  if lobby.status ≠ Status.playing then
    (lobby, StealResult.error ("Game not active"))
  else
    match lobby.players.find? (pid callerId) with
    | none => (lobby, StealResult.error ("Only the killer can do this"))
    | some thief =>
      if thief.role ≠ some Role.killer then
        (lobby, StealResult.error ("Only the killer can do this"))
      else if thief.hasStolenClue then
        (lobby, StealResult.error ("Already used steal ability"))
      else
        match lobby.players.find? (pid targetId) with
        | none => (lobby, StealResult.error ("Target not found"))
        | some target =>
          let targetClues := lobby.clues.filter (truthfulBy targetId)
          if 0 < targetClues.length then
            let clues := tamperNth lobby.clues targetId
              (rSel % targetClues.length)
            let players := mapFirst (pid callerId)
              (fun p => { p with hasStolenClue := true }) lobby.players
            ({ lobby with clues := clues, players := players },
             StealResult.message ("Clue from " ++ target.name ++ " tampered!"))
          else
            match generateClue lobby true r1 r2 r3 with
            | none => (lobby, StealResult.error ("TypeError"))
            | some text =>
              let players := mapFirst (pid callerId)
                (fun p => { p with hasStolenClue := true }) lobby.players
              ({ lobby with
                  clues := lobby.clues ++
                    [{ id := uuid
                       text := text
                       isTampered := true
                       foundBy := targetId }]
                  players := players },
               StealResult.message ("Fake clue planted on " ++ target.name
                 ++ "!"))

/-- Handler `steal_clue` at the registry level: a missing lobby shares the
`Game not active` error with a wrong status. -/
def stealClueReg (reg : Registry) (lobbyId callerId targetId : String)
    (rSel : Nat) (uuid : String) (r1 r2 r3 : Nat) : Registry × StealResult :=
  match reg lobbyId with
  | none => (reg, StealResult.error ("Game not active"))
  | some lobby =>
    let r := stealClue lobby callerId targetId rSel uuid r1 r2 r3
    (updateReg reg lobbyId (some r.1), r.2)

/-- JavaScript truthiness of `p.votedFor` (a `string | null`): `null` and
the empty string are falsy. -/
def truthy : Option String → Bool
  | none => false
  | some s => decide (s ≠ "")

/-- One step of the tally `votes[p.votedFor] = (votes[p.votedFor] || 0) +
1`: bump the count of a key, appending the key on first sight. -/
def bump : List (String × Nat) → String → List (String × Nat)
  | [], s => [(s, 1)]
  | e :: rest, s =>
    if e.1 = s then (e.1, e.2 + 1) :: rest else e :: bump rest s

/-- Per-player step of the tally loop `players.forEach(p => { if
(p.votedFor) votes[p.votedFor] = (votes[p.votedFor] || 0) + 1 })`. -/
def tallyStep (acc : List (String × Nat)) (p : Player) :
    List (String × Nat) :=
  match p.votedFor with
  | none => acc
  | some s => if s = "" then acc else bump acc s

/-- Vote tally of the `vote` handler: one `(key, count)` entry per distinct
truthy `votedFor` value, in first-occurrence order.  (The resolution below
is insensitive to the entry order, so the integer-key reordering of
JavaScript `Object.entries` is immaterial.) -/
def tallyVotes (players : List Player) : List (String × Nat) :=
  players.foldl tallyStep []

/-- One iteration of the `for (const [id, count] of Object.entries(votes))`
maximum/tie scan. -/
def voteStep : Nat × Option String × Bool → String × Nat →
    Nat × Option String × Bool
  | (m, s, t), e =>
    if m < e.2 then (e.2, some e.1, false)
    else if e.2 = m then (m, s, true)
    else (m, s, t)

/-- The full maximum/tie scan, from `maxVotes = 0`, `suspectedId = null`,
`tie = false`. -/
def voteLoop (votes : List (String × Nat)) : Nat × Option String × Bool :=
  votes.foldl voteStep (0, none, false)

/-- Strict inequality `suspectedId !== killer?.id` of the source, on
nullable strings: `suspectedId = null` and `killer?.id = undefined` are
distinct JavaScript values, so two absent sides still compare unequal. -/
def suspectMismatch : Option String → Option String → Bool
  | some a, some b => decide (a ≠ b)
  | _, _ => true

/-- Vote resolution block of the `vote` handler (the body of the `if
(lobby.players.every(p => p.votedFor))` branch). -/
def resolveVotes (lobby : Lobby) : Lobby :=
  let st := voteLoop (tallyVotes lobby.players)
  let killer := lobby.players.find? isKillerP
  if st.2.2 || suspectMismatch st.2.1 (killer.map Player.id) then
    { lobby with winner := some Winner.killer, status := Status.game_over }
  else { lobby with status := Status.witness_guessing }

/-- Handler `vote`: during `voting`, record the caller's target id (no
membership check on the target), then, once every player's `votedFor` is
truthy, resolve the accusation. -/
def voteHandler (lobby : Lobby) (callerId targetId : String) : Lobby :=
  if lobby.status = Status.voting then
    match lobby.players.find? (pid callerId) with
    | none => lobby
    | some _ =>
      let players := mapFirst (pid callerId)
        (fun p => { p with votedFor := some targetId }) lobby.players
      let lobby1 := { lobby with players := players }
      if players.all (fun p => truthy p.votedFor) then resolveVotes lobby1
      else lobby1
  else lobby

/-! Specification-side characterizations of the tally scan, used to state
the vote-resolution claims: the top count, the first entry attaining it,
and the number of entries attaining it. -/

/-- Maximum count appearing in a tally (0 for an empty tally), computed by
the same left fold as the scan of the `vote` handler. -/
def maxCounts (t : List (String × Nat)) : Nat :=
  t.foldl (fun m e => max m e.2) 0

/-- Identifier of the first tally entry attaining the top count. -/
def topEntryId (t : List (String × Nat)) : Option String :=
  (t.find? (fun e => decide (e.2 = maxCounts t))).map Prod.fst

/-- Number of tally entries attaining the top count (so a tie for the top
count means `2 ≤ topMult t`). -/
def topMult (t : List (String × Nat)) : Nat :=
  t.countP (fun e => decide (e.2 = maxCounts t))

/-- Closed form of the `(maxVotes, suspectedId, tie)` triple computed by
the scan of the `vote` handler. -/
def voteScanPost (t : List (String × Nat)) : Nat × Option String × Bool :=
  (maxCounts t, topEntryId t, decide (2 ≤ topMult t))

/-- Count of a key in a tally (0 when absent): the reading
`votes[s] || 0`. -/
def tallyCount (t : List (String × Nat)) (s : String) : Nat :=
  ((t.find? (fun e => decide (e.1 = s))).map Prod.snd).getD 0

/-- Role multiset prescribed by the specification, in its words: for 3
players exactly `{killer, witness, investigator}`; for n ≥ 4 players
`{killer, witness, forensics}` plus `n - 3` investigators. -/
def specRoleMultiset (n : Nat) : Multiset Role :=
  if n = 3 then {Role.killer, Role.witness, Role.investigator}
  else {Role.killer, Role.witness, Role.forensics} +
    Multiset.replicate (n - 3) Role.investigator

/-! Concrete states used to instantiate the theorems. -/

/-- A fixed attribute profile for concrete test players. -/
def attrs0 : Attributes :=
  { handedness := "Left"
    hairColor := "Black"
    shoeType := "Boots"
    tshirtDesign := "Plain"
    occupation := "Teacher"
    height := heightString 5 10
    accessory := "Glasses" }

/-- Concrete test player. -/
def mkP (i n : String) (r : Option Role) (host : Bool) (v : Option String)
    (st : Bool) : Player :=
  { id := i
    name := n
    role := r
    attributes := attrs0
    isHost := host
    votedFor := v
    x := 1000
    y := 1000
    color := "#ef4444"
    hasStolenClue := st }

/-- Concrete test lobby shell. -/
def mkLobby (st : Status) (ps : List Player) (cs : List Clue)
    (ts : List GameTask) : Lobby :=
  { id := "L"
    status := st
    players := ps
    clues := cs
    tasks := ts
    startTime := none
    endTime := none
    winner := none }

/-- Registry holding a single lobby under a given code. -/
def regOf (code : String) (l : Lobby) : Registry :=
  fun c => if c = code then some l else none

/-- Voting lobby with killer A and recorded votes A, A, B; player D is
about to cast the last vote. -/
def lobVote4 : Lobby :=
  mkLobby Status.voting
    [mkP ("A") ("a") (some Role.killer) true (some ("A")) false,
     mkP ("B") ("b") (some Role.witness) false (some ("A")) false,
     mkP ("C") ("c") (some Role.investigator) false (some ("B")) false,
     mkP ("D") ("d") (some Role.investigator) false none false]
    [] []

/-- Voting lobby in which player A already holds a recorded empty-string
vote (a non-null `votedFor`); player B is about to cast the last vote. -/
def lobEmptyVote : Lobby :=
  mkLobby Status.voting
    [mkP ("A") ("a") (some Role.killer) true (some ("")) false,
     mkP ("B") ("b") (some Role.witness) false none false]
    [] []

/-- Voting lobby in which player A has voted for a string that is no
player's id; player B is about to do the same. -/
def lobGhostVote : Lobby :=
  mkLobby Status.voting
    [mkP ("A") ("a") (some Role.killer) true (some ("ghost")) false,
     mkP ("B") ("b") (some Role.witness) false none false]
    [] []

/-- Pre-start lobby with three players and host A. -/
def lobPre3 : Lobby :=
  mkLobby Status.lobby
    [mkP ("A") ("a") none true none false,
     mkP ("B") ("b") none false none false,
     mkP ("C") ("c") none false none false]
    [] []

/-- Concrete uncompleted task. -/
def taskT : GameTask :=
  { id := "T"
    x := 300
    y := 300
    type := TaskType.wordle
    completed := false
    lockedFor := [] }

/-- The same task with its flag flipped. -/
def taskTdone : GameTask :=
  { id := "T"
    x := 300
    y := 300
    type := TaskType.wordle
    completed := true
    lockedFor := [] }

/-- Playing lobby with investigator host A, killer K, witness W and one
uncompleted task T. -/
def lobPlay3 : Lobby :=
  mkLobby Status.playing
    [mkP ("A") ("a") (some Role.investigator) true none false,
     mkP ("K") ("k") (some Role.killer) false none false,
     mkP ("W") ("w") (some Role.witness) false none false]
    []
    [taskT]

/-- Degenerate playing lobby whose only remaining player is the killer
(every non-killer has left), with one uncompleted task. -/
def lobKillerOnly : Lobby :=
  mkLobby Status.playing
    [mkP ("K") ("k") (some Role.killer) true none false]
    []
    [taskT]

/-- Playing lobby for the steal ability: killer K, target A holding two
truthful clues and one already-tampered clue. -/
def lobSteal : Lobby :=
  mkLobby Status.playing
    [mkP ("A") ("a") (some Role.investigator) true none false,
     mkP ("K") ("k") (some Role.killer) false none false,
     mkP ("W") ("w") (some Role.witness) false none false]
    [{ id := "c1", text := "Southpaw", isTampered := false, foundBy := "A" },
     { id := "c2", text := "Raven", isTampered := true, foundBy := "A" },
     { id := "c3", text := "Mud", isTampered := false, foundBy := "A" }]
    []

/-- Same lobby after the killer has already spent the steal ability. -/
def lobStealUsed : Lobby :=
  mkLobby Status.playing
    [mkP ("A") ("a") (some Role.investigator) true none false,
     mkP ("K") ("k") (some Role.killer) false none true,
     mkP ("W") ("w") (some Role.witness) false none false]
    [] []

/-- Lobby-status lobby with a single member A, for the duplicate join. -/
def lobSoloA : Lobby :=
  mkLobby Status.lobby [mkP ("A") ("Alex") none true none false] [] []

/-! Generic lemmas about the mutation helpers. -/

theorem mapFirst_length (p : α → Bool) (f : α → α) (l : List α) :
    (mapFirst p f l).length = l.length := by
  induction l with
  | nil => rfl
  | cons a as ih =>
    by_cases h : p a
    · simp [mapFirst, h]
    · simp [mapFirst, h, ih]

theorem find?_mapFirst (p : α → Bool) (f : α → α) (l : List α)
    (hf : ∀ a, p a = true → p (f a) = true) :
    (mapFirst p f l).find? p = (l.find? p).map f := by
  induction l with
  | nil => rfl
  | cons a as ih =>
    by_cases h : p a
    · simp [mapFirst, h, List.find?_cons_of_pos, hf a h]
    · simp [mapFirst, h, List.find?_cons_of_neg, ih]

theorem find?_append_left (p : α → Bool) (l₁ l₂ : List α) (a : α)
    (h : l₁.find? p = some a) : (l₁ ++ l₂).find? p = some a := by
  rw [List.find?_append, h]; rfl

theorem find?_append_right (p : α → Bool) (l₁ l₂ : List α)
    (h : l₁.find? p = none) : (l₁ ++ l₂).find? p = l₂.find? p := by
  rw [List.find?_append, h]; rfl

theorem setHeadHost_map_id (l : List Player) :
    (setHeadHost l).map Player.id = l.map Player.id := by
  cases l <;> rfl

theorem setHeadHost_countP_host (l : List Player)
    (h0 : l.countP (fun q => q.isHost) = 0) (hne : l ≠ []) :
    (setHeadHost l).countP (fun q => q.isHost) = 1 := by
  cases l with
  | nil => exact absurd rfl hne
  | cons a as =>
    rw [List.countP_cons] at h0
    have h1 : as.countP (fun q => q.isHost) = 0 := by omega
    show List.countP (fun q => q.isHost) ({ a with isHost := true } :: as) = 1
    rw [List.countP_cons, h1]
    simp

theorem countP_eraseIdx_of_true (p : α → Bool) :
    ∀ (l : List α) (i : Nat) (a : α), l.get? i = some a → p a = true →
      (l.eraseIdx i).countP p + 1 = l.countP p := by
  intro l
  induction l with
  | nil => intro i a h _; simp at h
  | cons x xs ih =>
    intro i a h hp
    cases i with
    | zero =>
      simp only [List.get?_cons_zero, Option.some.injEq] at h
      subst h
      simp [List.eraseIdx, List.countP_cons, hp]
    | succ k =>
      simp only [List.get?_cons_succ] at h
      simp only [List.eraseIdx, List.countP_cons]
      have := ih k a h hp
      omega

/-! Lemmas about clue-target selection. -/

theorem clueTarget_isSome (lobby : Lobby) (t : Bool) (r : Nat)
    (h : lobby.players ≠ []) : ∃ p, clueTarget lobby t r = some p := by
  obtain ⟨q, qs, hq⟩ : ∃ q qs, lobby.players = q :: qs := by
    cases hl : lobby.players with
    | nil => exact absurd hl h
    | cons q qs => exact ⟨q, qs, rfl⟩
  unfold clueTarget
  split
  · cases hg : (nonKillersOf lobby).get? (r % (nonKillersOf lobby).length) with
    | none => exact ⟨q, by simp [hq]⟩
    | some p => exact ⟨p, rfl⟩
  · cases hg : lobby.players.find? isKillerP with
    | none => exact ⟨q, by simp [hq]⟩
    | some p => exact ⟨p, rfl⟩

theorem generateClue_isSome (lobby : Lobby) (t : Bool) (r1 r2 r3 : Nat)
    (h : lobby.players ≠ []) :
    ∃ p, clueTarget lobby t r1 = some p ∧
      generateClue lobby t r1 r2 r3 = some (clueTextOf p r2 r3) := by
  obtain ⟨p, hp⟩ := clueTarget_isSome lobby t r1 h
  exact ⟨p, hp, by rw [generateClue, hp]; rfl⟩

theorem clueTarget_killer (lobby : Lobby) (r : Nat) (k : Player)
    (hk : lobby.players.find? isKillerP = some k) :
    clueTarget lobby false r = some k := by
  unfold clueTarget
  rw [if_neg (by simp)]
  rw [hk]

theorem clueTarget_nonkiller (lobby : Lobby) (r : Nat)
    (hne : nonKillersOf lobby ≠ []) :
    ∃ q, clueTarget lobby true r = some q ∧ q ∈ lobby.players ∧
      q.role ≠ some Role.killer := by
  have hlen : 0 < (nonKillersOf lobby).length := List.length_pos.mpr hne
  have hlt : r % (nonKillersOf lobby).length < (nonKillersOf lobby).length :=
    Nat.mod_lt _ hlen
  have hq : (nonKillersOf lobby).get? (r % (nonKillersOf lobby).length) =
      some ((nonKillersOf lobby).get ⟨r % (nonKillersOf lobby).length, hlt⟩) :=
    List.get?_eq_get hlt
  have hmem : (nonKillersOf lobby).get
      ⟨r % (nonKillersOf lobby).length, hlt⟩ ∈ nonKillersOf lobby :=
    List.get_mem _ _ _
  have hmem2 := List.mem_filter.mp hmem
  refine ⟨_, ?_, hmem2.1, ?_⟩
  · unfold clueTarget
    rw [if_pos rfl, hq]
  · have := hmem2.2
    simp [isKillerP] at this
    exact this

/-! The Fisher-Yates loop permutes the role pool. -/

theorem cons_set_perm (x : α) :
    ∀ (xs : List α) (m : Nat) (b : α), xs[m]? = some b →
      List.Perm (b :: xs.set m x) (x :: xs) := by
  intro xs
  induction xs with
  | nil => intro m b h; simp at h
  | cons y ys ih =>
    intro m b h
    cases m with
    | zero =>
      have hy : y = b := by simpa using h
      rw [← hy, List.set_cons_zero]
      exact List.Perm.swap x y ys
    | succ k =>
      rw [List.getElem?_cons_succ] at h
      rw [List.set_cons_succ]
      have t1 : List.Perm (b :: y :: ys.set k x) (y :: b :: ys.set k x) :=
        List.Perm.swap y b _
      have t2 : List.Perm (y :: b :: ys.set k x) (y :: x :: ys) :=
        (ih k b h).cons y
      have t3 : List.Perm (y :: x :: ys) (x :: y :: ys) :=
        List.Perm.swap x y ys
      exact (t1.trans t2).trans t3

theorem swapL_perm (l : List α) : ∀ (i j : Nat), List.Perm (swapL l i j) l := by
  induction l with
  | nil => intro i j; rw [swapL]; simp
  | cons y ys ih =>
    intro i j
    rw [swapL]
    cases i with
    | zero =>
      cases j with
      | zero => simp
      | succ k =>
        cases hk : ys[k]? with
        | none => simp [hk]
        | some b =>
          simp only [List.getElem?_cons_zero, List.getElem?_cons_succ, hk,
            List.set_cons_zero, List.set_cons_succ]
          exact cons_set_perm y ys k b hk
    | succ m =>
      cases hm : ys[m]? with
      | none => simp [hm]
      | some a =>
        cases j with
        | zero =>
          simp only [List.getElem?_cons_zero, List.getElem?_cons_succ, hm,
            List.set_cons_zero, List.set_cons_succ]
          exact cons_set_perm y ys m a hm
        | succ k =>
          cases hk : ys[k]? with
          | none => simp [hm, hk]
          | some b =>
            simp only [List.getElem?_cons_succ, hm, hk, List.set_cons_succ]
            have h2 := ih m k
            rw [swapL, hm, hk] at h2
            exact h2.cons y

theorem fisherGo_perm (rand : Nat → Nat) :
    ∀ (k : Nat) (l : List α), List.Perm (fisherGo rand l k) l := by
  intro k
  induction k with
  | zero => intro l; exact List.Perm.refl l
  | succ i ih =>
    intro l
    exact (ih _).trans (swapL_perm l _ _)

theorem shuffle_perm (l : List α) (rand : Nat → Nat) :
    List.Perm (shuffle l rand) l :=
  fisherGo_perm rand _ l

theorem shuffle_length (l : List α) (rand : Nat → Nat) :
    (shuffle l rand).length = l.length :=
  (shuffle_perm l rand).length_eq

/-! Role pool and positional assignment. -/

theorem rolePool_length (n : Nat) (h3 : 3 ≤ n) : (rolePool n).length = n := by
  rw [rolePool]
  by_cases h4 : 4 ≤ n <;> simp [h4] <;> omega

theorem zipRoles_map_role :
    ∀ (ps : List Player) (rs : List Role), ps.length ≤ rs.length →
      (zipRoles ps rs).map Player.role = (rs.take ps.length).map some := by
  intro ps
  induction ps with
  | nil => intro rs _; rfl
  | cons p ps ih =>
    intro rs h
    cases rs with
    | nil => simp at h
    | cons r rs =>
      have h2 : ps.length ≤ rs.length := by
        simp only [List.length_cons] at h
        omega
      simp only [zipRoles, List.map_cons, List.length_cons, List.take_succ_cons]
      rw [ih rs h2]

theorem zipRoles_length :
    ∀ (ps : List Player) (rs : List Role), (zipRoles ps rs).length = ps.length := by
  intro ps
  induction ps with
  | nil => intro rs; cases rs <;> rfl
  | cons p ps ih =>
    intro rs
    cases rs with
    | nil => simpa [zipRoles] using ih []
    | cons r rs => simpa [zipRoles] using ih rs

theorem countP_replicate (p : α → Bool) (n : Nat) (a : α) :
    (List.replicate n a).countP p = if p a then n else 0 := by
  induction n with
  | zero => simp
  | succ k ih =>
    rw [List.replicate_succ, List.countP_cons, ih]
    by_cases h : p a <;> simp [h]

theorem rolePool_countP (n : Nat) (h3 : 3 ≤ n) (p : Role → Bool) :
    (rolePool n).countP p =
      (if p Role.killer then 1 else 0) + (if p Role.witness then 1 else 0) +
      (if p Role.forensics then if 4 ≤ n then 1 else 0 else 0) +
      (if p Role.investigator then n - 3 + (if 4 ≤ n then 0 else 1) else 0) := by
  rw [rolePool]
  by_cases h4 : 4 ≤ n
  · simp only [h4, if_true, List.countP_append, countP_replicate]
    simp only [List.countP_cons, List.countP_nil, List.length_append]
    by_cases hk : p Role.killer <;> by_cases hw : p Role.witness <;>
      by_cases hi : p Role.investigator <;> by_cases hf : p Role.forensics <;>
      simp [hk, hw, hi, hf] <;> omega
  · have hn : n = 3 := by omega
    subst hn
    simp only [if_neg h4, List.countP_append, countP_replicate]
    simp only [List.countP_cons, List.countP_nil]
    by_cases hk : p Role.killer <;> by_cases hw : p Role.witness <;>
      by_cases hi : p Role.investigator <;>
      simp [hk, hw, hi, h4]

theorem rolePool_multiset (n : Nat) (h3 : 3 ≤ n) :
    (↑(rolePool n) : Multiset Role) = specRoleMultiset n := by
  by_cases h4 : 4 ≤ n
  · have hne : ¬(n = 3) := by omega
    have hrep : n - 3 = (n - 4) + 1 := by omega
    rw [rolePool, specRoleMultiset, if_pos h4, if_neg hne, hrep,
      Multiset.replicate_succ]
    show (↑((([Role.killer, Role.witness, Role.investigator] ++
      [Role.forensics]) ++ List.replicate (n - ([Role.killer, Role.witness,
      Role.investigator] ++ [Role.forensics]).length) Role.investigator)) :
        Multiset Role) = _
    have hlen : ([Role.killer, Role.witness, Role.investigator] ++
        [Role.forensics]).length = 4 := rfl
    rw [hlen]
    rw [← Multiset.coe_add, ← Multiset.coe_replicate]
    have hbase : (↑([Role.killer, Role.witness, Role.investigator] ++
        [Role.forensics]) : Multiset Role) =
        {Role.killer, Role.witness, Role.forensics} +
          {Role.investigator} := by decide
    rw [hbase, add_assoc, Multiset.singleton_add]
  · have hn : n = 3 := by omega
    subst hn
    rw [rolePool, specRoleMultiset, if_neg h4, if_pos rfl]
    decide

theorem assignRoles_map_role (players : List Player) (rand : Nat → Nat)
    (h3 : 3 ≤ players.length) :
    (assignRoles players rand).map Player.role =
      (shuffle (rolePool players.length) rand).map some := by
  have hlen : (shuffle (rolePool players.length) rand).length =
      players.length := by
    rw [shuffle_length, rolePool_length _ h3]
  rw [assignRoles, zipRoles_map_role _ _ (le_of_eq hlen.symm)]
  rw [List.take_of_length_le (le_of_eq hlen)]

/-! Lemmas about the vote tally. -/

theorem bump_ne_nil (acc : List (String × Nat)) (s : String) :
    bump acc s ≠ [] := by
  cases acc with
  | nil => simp [bump]
  | cons e rest =>
    rw [bump]
    by_cases h : e.1 = s <;> simp [h]

theorem bump_pos :
    ∀ (acc : List (String × Nat)) (s : String), (∀ e ∈ acc, 1 ≤ e.2) →
      ∀ e ∈ bump acc s, 1 ≤ e.2 := by
  intro acc
  induction acc with
  | nil =>
    intro s _ e he
    simp only [bump, List.mem_singleton] at he
    subst he
    exact le_refl 1
  | cons a rest ih =>
    intro s h e he
    rw [bump] at he
    by_cases hh : a.1 = s
    · rw [if_pos hh] at he
      rcases List.mem_cons.mp he with h1 | h1
      · subst h1; simp
      · exact h e (List.mem_cons_of_mem _ h1)
    · rw [if_neg hh] at he
      rcases List.mem_cons.mp he with h1 | h1
      · rw [h1]; exact h a (List.mem_cons_self _ _)
      · exact ih s (fun x hx => h x (List.mem_cons_of_mem _ hx)) e h1

theorem foldl_tallyStep_pos :
    ∀ (ps : List Player) (acc : List (String × Nat)),
      (∀ e ∈ acc, 1 ≤ e.2) → ∀ e ∈ ps.foldl tallyStep acc, 1 ≤ e.2 := by
  intro ps
  induction ps with
  | nil => intro acc h; simpa using h
  | cons p ps ih =>
    intro acc h
    rw [List.foldl_cons]
    apply ih
    cases hv : p.votedFor with
    | none => simpa [tallyStep, hv] using h
    | some s =>
      by_cases hs : s = ""
      · simpa [tallyStep, hv, hs] using h
      · simpa [tallyStep, hv, hs] using bump_pos acc s h

theorem tallyVotes_pos (ps : List Player) : ∀ e ∈ tallyVotes ps, 1 ≤ e.2 :=
  foldl_tallyStep_pos ps [] (by simp)

theorem foldl_tallyStep_ne_nil :
    ∀ (ps : List Player) (acc : List (String × Nat)), acc ≠ [] →
      ps.foldl tallyStep acc ≠ [] := by
  intro ps
  induction ps with
  | nil => intro acc h; simpa using h
  | cons p ps ih =>
    intro acc h
    rw [List.foldl_cons]
    apply ih
    cases hv : p.votedFor with
    | none => simpa [tallyStep, hv] using h
    | some s =>
      by_cases hs : s = ""
      · simpa [tallyStep, hv, hs] using h
      · simpa [tallyStep, hv, hs] using bump_ne_nil acc s

theorem tallyVotes_ne_nil (ps : List Player) (hne : ps ≠ [])
    (hall : ∀ p ∈ ps, truthy p.votedFor = true) : tallyVotes ps ≠ [] := by
  cases ps with
  | nil => exact absurd rfl hne
  | cons p ps =>
    rw [tallyVotes, List.foldl_cons]
    apply foldl_tallyStep_ne_nil
    have ht := hall p (List.mem_cons_self _ _)
    cases hv : p.votedFor with
    | none => rw [hv] at ht; exact absurd ht (by simp [truthy])
    | some s =>
      rw [hv] at ht
      have hs : s ≠ "" := by simpa [truthy] using ht
      simpa [tallyStep, hv, hs] using bump_ne_nil [] s

/-! Lemmas about the maximum/tie scan. -/

theorem le_foldl_max :
    ∀ (t : List (String × Nat)) (i : Nat),
      i ≤ t.foldl (fun m e => max m e.2) i := by
  intro t
  induction t with
  | nil => intro i; exact le_refl i
  | cons e t ih =>
    intro i
    rw [List.foldl_cons]
    exact le_trans (Nat.le_max_left i e.2) (ih (max i e.2))

theorem mem_le_foldl_max :
    ∀ (t : List (String × Nat)) (i : Nat) (e : String × Nat), e ∈ t →
      e.2 ≤ t.foldl (fun m e => max m e.2) i := by
  intro t
  induction t with
  | nil => intro i e he; simp at he
  | cons a t ih =>
    intro i e he
    rw [List.foldl_cons]
    rcases List.mem_cons.mp he with h1 | h1
    · subst h1; exact le_trans (Nat.le_max_right i e.2) (le_foldl_max t _)
    · exact ih _ e h1

theorem foldl_max_attained :
    ∀ (t : List (String × Nat)) (i : Nat),
      t.foldl (fun m e => max m e.2) i = i ∨
        ∃ e ∈ t, t.foldl (fun m e => max m e.2) i = e.2 := by
  intro t
  induction t with
  | nil => intro i; exact Or.inl rfl
  | cons a t ih =>
    intro i
    rw [List.foldl_cons]
    rcases ih (max i a.2) with h | ⟨e, he, hee⟩
    · rw [h]
      by_cases hc : a.2 ≤ i
      · exact Or.inl (Nat.max_eq_left hc)
      · exact Or.inr ⟨a, List.mem_cons_self _ _,
          Nat.max_eq_right (le_of_not_le hc)⟩
    · exact Or.inr ⟨e, List.mem_cons_of_mem _ he, hee⟩

theorem maxCounts_pos (t : List (String × Nat))
    (hpos : ∀ e ∈ t, 1 ≤ e.2) (hne : t ≠ []) : 1 ≤ maxCounts t := by
  cases t with
  | nil => exact absurd rfl hne
  | cons e ts =>
    have h1 := hpos e (List.mem_cons_self _ _)
    have h2 := mem_le_foldl_max (e :: ts) 0 e (List.mem_cons_self _ _)
    rw [maxCounts]
    omega

theorem maxCounts_attained (t : List (String × Nat))
    (h1 : 1 ≤ maxCounts t) : ∃ e ∈ t, e.2 = maxCounts t := by
  rcases foldl_max_attained t 0 with h | ⟨e, he, hee⟩
  · rw [maxCounts] at h1; omega
  · exact ⟨e, he, hee.symm⟩

theorem topEntryId_some (t : List (String × Nat))
    (hpos : ∀ e ∈ t, 1 ≤ e.2) (hne : t ≠ []) :
    ∃ s, topEntryId t = some s := by
  obtain ⟨e, he, hee⟩ := maxCounts_attained t (maxCounts_pos t hpos hne)
  have hs : (t.find? (fun e => decide (e.2 = maxCounts t))).isSome :=
    List.find?_isSome.mpr ⟨e, he, by simp [hee]⟩
  obtain ⟨a, ha⟩ := Option.isSome_iff_exists.mp hs
  exact ⟨a.1, by rw [topEntryId, ha]; rfl⟩

theorem maxCounts_append_singleton (t : List (String × Nat))
    (e : String × Nat) :
    maxCounts (t ++ [e]) = max (maxCounts t) e.2 := by
  rw [maxCounts, maxCounts, List.foldl_append]
  rfl

theorem voteStep_voteScanPost (P : List (String × Nat)) (e : String × Nat)
    (_hP : ∀ x ∈ P, 1 ≤ x.2) (he : 1 ≤ e.2) :
    voteStep (voteScanPost P) e = voteScanPost (P ++ [e]) := by
  have hmax := maxCounts_append_singleton P e
  rcases Nat.lt_trichotomy (maxCounts P) e.2 with hlt | heq | hgt
  · have hm : maxCounts (P ++ [e]) = e.2 := by
      rw [hmax]; exact Nat.max_eq_right (le_of_lt hlt)
    have hnone : P.find? (fun x => decide (x.2 = maxCounts (P ++ [e]))) =
        none := by
      rw [List.find?_eq_none]
      intro x hx
      have hb := mem_le_foldl_max P 0 x hx
      rw [← maxCounts] at hb
      simp only [decide_eq_true_eq, hm]
      omega
    have h1 : topEntryId (P ++ [e]) = some e.1 := by
      rw [topEntryId, find?_append_right _ _ _ hnone]
      rw [List.find?_cons_of_pos _ (by simp [hm])]
      rfl
    have h2 : topMult (P ++ [e]) = 1 := by
      rw [topMult, List.countP_append]
      have hz : P.countP (fun x => decide (x.2 = maxCounts (P ++ [e]))) = 0 := by
        rw [List.countP_eq_zero]
        intro x hx
        have hb := mem_le_foldl_max P 0 x hx
        rw [← maxCounts] at hb
        simp only [decide_eq_true_eq, hm]
        omega
      rw [hz]
      simp [hm]
    rw [voteScanPost, voteScanPost, voteStep]
    rw [if_pos hlt, h1, h2, hm]
    rfl
  · have hm : maxCounts (P ++ [e]) = maxCounts P := by
      rw [hmax, heq, Nat.max_self]
    have hM1 : 1 ≤ maxCounts P := by omega
    obtain ⟨a, ha, haa⟩ := maxCounts_attained P hM1
    have hs : (P.find? (fun x => decide (x.2 = maxCounts P))).isSome :=
      List.find?_isSome.mpr ⟨a, ha, by simp [haa]⟩
    obtain ⟨b, hb⟩ := Option.isSome_iff_exists.mp hs
    have h1 : topEntryId (P ++ [e]) = topEntryId P := by
      rw [topEntryId, topEntryId, hm, find?_append_left _ _ _ b hb, hb]
    have hcnt : 1 ≤ P.countP (fun x => decide (x.2 = maxCounts P)) :=
      List.countP_pos_iff.mpr ⟨a, ha, by simp [haa]⟩
    have h2 : topMult (P ++ [e]) =
        P.countP (fun x => decide (x.2 = maxCounts P)) + 1 := by
      rw [topMult, hm, List.countP_append]
      simp [heq]
    rw [voteScanPost, voteScanPost, voteStep]
    rw [if_neg (by omega), if_pos heq.symm, hm, h1, h2]
    have hq : (2 ≤ P.countP (fun x => decide (x.2 = maxCounts P)) + 1) := by
      omega
    simp [topMult, hq]
  · have hm : maxCounts (P ++ [e]) = maxCounts P := by
      rw [hmax]; exact Nat.max_eq_left (le_of_lt hgt)
    have hM1 : 1 ≤ maxCounts P := by omega
    obtain ⟨a, ha, haa⟩ := maxCounts_attained P hM1
    have hs : (P.find? (fun x => decide (x.2 = maxCounts P))).isSome :=
      List.find?_isSome.mpr ⟨a, ha, by simp [haa]⟩
    obtain ⟨b, hb⟩ := Option.isSome_iff_exists.mp hs
    have h1 : topEntryId (P ++ [e]) = topEntryId P := by
      rw [topEntryId, topEntryId, hm, find?_append_left _ _ _ b hb, hb]
    have h2 : topMult (P ++ [e]) = topMult P := by
      rw [topMult, topMult, hm, List.countP_append]
      have hz : [e].countP (fun x => decide (x.2 = maxCounts P)) = 0 := by
        simp only [List.countP_cons, List.countP_nil]
        have : ¬(e.2 = maxCounts P) := by omega
        simp [this]
      rw [hz, Nat.add_zero]
    rw [voteScanPost, voteScanPost, voteStep]
    rw [if_neg (by omega), if_neg (by omega), hm, h1, h2]

theorem foldl_voteStep_voteScanPost :
    ∀ (t P : List (String × Nat)), (∀ x ∈ P, 1 ≤ x.2) →
      (∀ x ∈ t, 1 ≤ x.2) →
      t.foldl voteStep (voteScanPost P) = voteScanPost (P ++ t) := by
  intro t
  induction t with
  | nil => intro P hP _; simp
  | cons e t ih =>
    intro P hP ht
    rw [List.foldl_cons,
      voteStep_voteScanPost P e hP (ht e (List.mem_cons_self _ _))]
    rw [ih (P ++ [e]) ?_ ?_]
    · rw [List.append_assoc]; rfl
    · intro x hx
      rcases List.mem_append.mp hx with h | h
      · exact hP x h
      · rw [List.mem_singleton] at h; subst h
        exact ht x (List.mem_cons_self _ _)
    · intro x hx
      exact ht x (List.mem_cons_of_mem _ hx)

theorem voteLoop_eq (t : List (String × Nat)) (h : ∀ x ∈ t, 1 ≤ x.2) :
    voteLoop t = voteScanPost t := by
  have h0 : voteScanPost ([] : List (String × Nat)) = (0, none, false) := rfl
  have h1 := foldl_voteStep_voteScanPost t [] (by simp) h
  rw [h0] at h1
  rw [voteLoop]
  simpa using h1

/-! Behaviour of the vote resolution block. -/

theorem resolveVotes_success (L : Lobby) (hne : L.players ≠ [])
    (hall : ∀ p ∈ L.players, truthy p.votedFor = true)
    (h1 : topMult (tallyVotes L.players) = 1)
    (h2 : topEntryId (tallyVotes L.players) =
      (L.players.find? isKillerP).map Player.id) :
    resolveVotes L = { L with status := Status.witness_guessing } := by
  obtain ⟨s, hs⟩ := topEntryId_some (tallyVotes L.players)
    (tallyVotes_pos _) (tallyVotes_ne_nil _ hne hall)
  have hvl := voteLoop_eq (tallyVotes L.players) (tallyVotes_pos _)
  rw [resolveVotes]
  simp only [hvl, voteScanPost]
  rw [h1, ← h2, hs]
  simp [suspectMismatch]

theorem resolveVotes_fail (L : Lobby) (hne : L.players ≠ [])
    (hall : ∀ p ∈ L.players, truthy p.votedFor = true)
    (h : 2 ≤ topMult (tallyVotes L.players) ∨
      topEntryId (tallyVotes L.players) ≠
        (L.players.find? isKillerP).map Player.id) :
    resolveVotes L =
      { L with winner := some Winner.killer, status := Status.game_over } := by
  obtain ⟨s, hs⟩ := topEntryId_some (tallyVotes L.players)
    (tallyVotes_pos _) (tallyVotes_ne_nil _ hne hall)
  have hvl := voteLoop_eq (tallyVotes L.players) (tallyVotes_pos _)
  rw [resolveVotes]
  simp only [hvl, voteScanPost]
  have hcond : (decide (2 ≤ topMult (tallyVotes L.players)) ||
      suspectMismatch (topEntryId (tallyVotes L.players))
        ((L.players.find? isKillerP).map Player.id)) = true := by
    rcases h with h | h
    · simp [h]
    · cases hk : (L.players.find? isKillerP).map Player.id with
      | none => simp [suspectMismatch, hs]
      | some k =>
        have hneq : s ≠ k := by
          intro hc
          exact h (by rw [hs, hk, hc])
        simp [suspectMismatch, hs, hk, hneq]
  rw [hcond]
  simp

theorem voteHandler_eq_resolve (lobby : Lobby) (callerId targetId : String)
    (p : Player)
    (hst : lobby.status = Status.voting)
    (hp : lobby.players.find? (pid callerId) = some p)
    (hall : ∀ q ∈ mapFirst (pid callerId)
      (fun q => { q with votedFor := some targetId }) lobby.players,
      truthy q.votedFor = true) :
    voteHandler lobby callerId targetId =
      resolveVotes { lobby with
        players := mapFirst (pid callerId)
          (fun q => { q with votedFor := some targetId }) lobby.players } := by
  have hb : (mapFirst (pid callerId)
      (fun q => { q with votedFor := some targetId })
      lobby.players).all (fun q => truthy q.votedFor) = true :=
    List.all_eq_true.mpr hall
  unfold voteHandler
  rw [if_pos hst, hp]
  simp only [hb, if_true]

theorem voteHandler_no_resolve (lobby : Lobby) (callerId targetId : String)
    (p : Player)
    (hst : lobby.status = Status.voting)
    (hp : lobby.players.find? (pid callerId) = some p)
    (hnall : (mapFirst (pid callerId)
      (fun q => { q with votedFor := some targetId })
      lobby.players).all (fun q => truthy q.votedFor) = false) :
    voteHandler lobby callerId targetId =
      { lobby with
        players := mapFirst (pid callerId)
          (fun q => { q with votedFor := some targetId }) lobby.players } := by
  unfold voteHandler
  rw [if_pos hst, hp]
  simp only [hnall]
  rfl

/-! Behaviour of the task-completion handler. -/

theorem taskCompleted_ghost (lobby : Lobby) (callerId taskId uuid : String)
    (r1 r2 r3 : Nat) (task : GameTask)
    (hst : lobby.status = Status.playing)
    (ht : lobby.tasks.find? (tidP taskId) = some task)
    (hc : task.completed = false)
    (hp : lobby.players.find? (pid callerId) = none) :
    taskCompleted lobby callerId taskId uuid r1 r2 r3 =
      { lobby with
        tasks := mapFirst (tidP taskId)
          (fun t => { t with completed := true }) lobby.tasks } := by
  unfold taskCompleted
  rw [if_pos hst, ht]
  simp only [hc, Bool.false_eq_true, if_false, hp]

theorem taskCompleted_spec (lobby : Lobby) (callerId taskId uuid : String)
    (r1 r2 r3 : Nat) (task : GameTask) (player : Player)
    (hst : lobby.status = Status.playing)
    (ht : lobby.tasks.find? (tidP taskId) = some task)
    (hc : task.completed = false)
    (hp : lobby.players.find? (pid callerId) = some player) :
    ∃ tgt, clueTarget lobby (isKillerP player) r1 = some tgt ∧
      taskCompleted lobby callerId taskId uuid r1 r2 r3 =
        { lobby with
          tasks := mapFirst (tidP taskId)
            (fun t => { t with completed := true }) lobby.tasks
          clues := lobby.clues ++
            [{ id := uuid
               text := clueTextOf tgt r2 r3
               isTampered := isKillerP player
               foundBy := player.id }] } := by
  have hne : lobby.players ≠ [] := by
    intro h0
    rw [h0] at hp
    simp at hp
  obtain ⟨tgt, htgt, hgen⟩ :=
    generateClue_isSome lobby (isKillerP player) r1 r2 r3 hne
  refine ⟨tgt, htgt, ?_⟩
  unfold taskCompleted
  rw [if_pos hst, ht]
  simp only [hc, Bool.false_eq_true, if_false, hp, hgen]

theorem taskCompleted_already (lobby : Lobby) (callerId taskId uuid : String)
    (r1 r2 r3 : Nat) (task : GameTask)
    (hst : lobby.status = Status.playing)
    (ht : lobby.tasks.find? (tidP taskId) = some task)
    (hc : task.completed = true) :
    taskCompleted lobby callerId taskId uuid r1 r2 r3 = lobby := by
  unfold taskCompleted
  rw [if_pos hst, ht]
  simp only [hc, if_true]

/-! Behaviour of the in-place tampering of a random truthful clue. -/

theorem tamperNth_spec :
    ∀ (cs : List Clue) (tid : String) (k : Nat),
      k < (cs.filter (truthfulBy tid)).length →
      ∃ j, ∃ hj : j < cs.length, truthfulBy tid (cs.get ⟨j, hj⟩) = true ∧
        tamperNth cs tid k =
          cs.set j { cs.get ⟨j, hj⟩ with isTampered := true } := by
  intro cs
  induction cs with
  | nil => intro tid k h; simp at h
  | cons c cs ih =>
    intro tid k h
    by_cases hc : truthfulBy tid c
    · cases k with
      | zero =>
        refine ⟨0, by simp, by simpa using hc, ?_⟩
        rw [tamperNth, if_pos hc, if_pos rfl]
        rfl
      | succ k =>
        rw [List.filter_cons_of_pos hc, List.length_cons] at h
        have hk : k < (cs.filter (truthfulBy tid)).length := by omega
        obtain ⟨j, hj, hpred, heq⟩ := ih tid k hk
        refine ⟨j + 1, by simpa using Nat.succ_lt_succ hj, by simpa using hpred,
          ?_⟩
        rw [tamperNth, if_pos hc, if_neg (by omega)]
        simp only [Nat.add_sub_cancel]
        rw [heq]
        rfl
    · rw [List.filter_cons_of_neg hc] at h
      obtain ⟨j, hj, hpred, heq⟩ := ih tid k h
      refine ⟨j + 1, by simpa using Nat.succ_lt_succ hj, by simpa using hpred,
        ?_⟩
      rw [tamperNth, if_neg hc]
      rw [heq]
      rfl

/-! The tally counts every truthy vote value, member id or not. -/

theorem bump_tallyCount (acc : List (String × Nat)) (v s : String) :
    tallyCount (bump acc v) s =
      if v = s then tallyCount acc s + 1 else tallyCount acc s := by
  induction acc with
  | nil =>
    rw [bump]
    by_cases hv : v = s
    · simp [tallyCount, hv]
    · simp [tallyCount, hv]
  | cons a rest ih =>
    rw [bump]
    by_cases ha : a.1 = v
    · rw [if_pos ha]
      by_cases has : a.1 = s
      · have hv : v = s := by rw [← ha]; exact has
        simp [tallyCount, has, hv]
      · have hv : ¬(v = s) := by rw [← ha]; exact has
        simp [tallyCount, has, hv]
    · rw [if_neg ha]
      by_cases has : a.1 = s
      · have hv : ¬(v = s) := by
          intro hc
          exact ha (by rw [hc]; exact has)
        simp [tallyCount, has, hv]
      · by_cases hv : v = s <;>
          simpa [tallyCount, has, hv] using ih

theorem tallyCount_foldl (s : String) (hs : s ≠ "") :
    ∀ (ps : List Player) (acc : List (String × Nat)),
      tallyCount (ps.foldl tallyStep acc) s =
        tallyCount acc s +
          ps.countP (fun q => decide (q.votedFor = some s)) := by
  intro ps
  induction ps with
  | nil => intro acc; simp
  | cons p ps ih =>
    intro acc
    rw [List.foldl_cons, ih, List.countP_cons]
    cases hv : p.votedFor with
    | none => simp [tallyStep, hv]
    | some v =>
      by_cases hv0 : v = ""
      · have hne : ¬("" = s) := fun hc => hs hc.symm
        simp [tallyStep, hv, hv0, hne]
      · by_cases hvs : v = s
        · have hd : (decide ((some v : Option String) = some s)) = true := by
            rw [hvs]
            simp
          simp only [tallyStep, hv, if_neg hv0, bump_tallyCount, if_pos hvs,
            hd, if_true]
          omega
        · have hd : (decide ((some v : Option String) = some s)) = false := by
            simpa using hvs
          simp only [tallyStep, hv, if_neg hv0, bump_tallyCount, if_neg hvs,
            hd, Bool.false_eq_true, if_false]
          omega

theorem tallyVotes_count (ps : List Player) (s : String) (hs : s ≠ "") :
    tallyCount (tallyVotes ps) s =
      ps.countP (fun q => decide (q.votedFor = some s)) := by
  have h := tallyCount_foldl s hs ps []
  rw [tallyVotes]
  rw [h]
  simp [tallyCount]

theorem resolveVotes_players (L : Lobby) :
    (resolveVotes L).players = L.players := by
  rw [resolveVotes]
  split <;> rfl

/-! Claim theorems for vote resolution. -/

/-- Claim C1, amended.  The handler gates resolution on JavaScript
truthiness of every recorded `votedFor`, so "non-null" must be read as
"non-null and non-empty": for every lobby in status `voting`, once the
caller's vote is recorded and every player's `votedFor` is a non-empty
string, the handler tallies votes by target id and resolves exactly thus —
no tie for the top count and plurality target equal to the true killer's id
gives `witness_guessing`; any tie for the top count, or a plurality target
different from the killer's id, gives `game_over` with winner `killer`. -/
theorem claim1_vote_resolution (lobby : Lobby) (callerId targetId : String)
    (p : Player) (players1 : List Player)
    (hst : lobby.status = Status.voting)
    (hp : lobby.players.find? (pid callerId) = some p)
    (hp1 : players1 = mapFirst (pid callerId)
      (fun q => { q with votedFor := some targetId }) lobby.players)
    (hall : ∀ q ∈ players1, truthy q.votedFor = true) :
    (topMult (tallyVotes players1) = 1 ∧
      topEntryId (tallyVotes players1) =
        (players1.find? isKillerP).map Player.id →
      (voteHandler lobby callerId targetId).status =
        Status.witness_guessing) ∧
    (2 ≤ topMult (tallyVotes players1) ∨
      topEntryId (tallyVotes players1) ≠
        (players1.find? isKillerP).map Player.id →
      (voteHandler lobby callerId targetId).status = Status.game_over ∧
      (voteHandler lobby callerId targetId).winner = some Winner.killer) := by
  subst hp1
  have hne0 : lobby.players ≠ [] := by
    intro h0
    rw [h0] at hp
    simp at hp
  have hne : mapFirst (pid callerId)
      (fun q => { q with votedFor := some targetId }) lobby.players ≠ [] := by
    intro h0
    have hl := congrArg List.length h0
    rw [mapFirst_length] at hl
    exact hne0 (List.length_eq_zero.mp hl)
  have heq := voteHandler_eq_resolve lobby callerId targetId p hst hp hall
  constructor
  · rintro ⟨h1, h2⟩
    rw [heq, resolveVotes_success _ hne hall h1 h2]
  · intro h
    rw [heq, resolveVotes_fail _ hne hall h]
    exact ⟨rfl, rfl⟩

/-- Claim C1 counterexample, refuting the claim as frozen: in this voting
lobby every player ends the handler call with a non-null `votedFor` (player
A holds the recorded empty string, player B just voted for A), yet the
handler does not resolve — the status remains `voting` and no winner is
set, where the claim requires `witness_guessing` or `game_over`. -/
theorem claim1_counterexample :
    (∀ q ∈ (voteHandler lobEmptyVote ("B") ("A")).players,
      q.votedFor ≠ none) ∧
    (voteHandler lobEmptyVote ("B") ("A")).status = Status.voting ∧
    (voteHandler lobEmptyVote ("B") ("A")).winner = none := by
  decide

/-- Claim C1 witness: the two vote distributions named by the claim.  With
killer A and votes `{A:2, B:1, C:1}` the status becomes `witness_guessing`;
with the same lobby and final vote making `{A:2, B:2}` the status becomes
`game_over` with winner `killer`. -/
theorem claim1_witness :
    (voteHandler lobVote4 ("D") ("C")).status = Status.witness_guessing ∧
    ((voteHandler lobVote4 ("D") ("B")).status = Status.game_over ∧
      (voteHandler lobVote4 ("D") ("B")).winner = some Winner.killer) :=
  ⟨(claim1_vote_resolution lobVote4 ("D") ("C")
      (mkP ("D") ("d") (some Role.investigator) false none false) _
      (by decide) (by decide) rfl (by decide)).1 (by decide),
   (claim1_vote_resolution lobVote4 ("D") ("B")
      (mkP ("D") ("d") (some Role.investigator) false none false) _
      (by decide) (by decide) rfl (by decide)).2 (by decide)⟩

/-- Claim C10: the vote handler stores whatever target id the caller
supplies, with no check that it names a player; a truthy vote value is
counted in the tally whether or not it is a member id; and when a
nonexistent id is the unique plurality target the lobby resolves to
`game_over` with winner `killer`, exactly as for an accused non-killer. -/
theorem claim10_vote_unchecked (lobby : Lobby) (callerId targetId : String)
    (p : Player) (players1 : List Player)
    (hst : lobby.status = Status.voting)
    (hp : lobby.players.find? (pid callerId) = some p)
    (hp1 : players1 = mapFirst (pid callerId)
      (fun q => { q with votedFor := some targetId }) lobby.players) :
    ((voteHandler lobby callerId targetId).players = players1 ∧
      ∃ q, players1.find? (pid callerId) = some q ∧
        q.votedFor = some targetId) ∧
    (targetId ≠ "" →
      tallyCount (tallyVotes players1) targetId =
        players1.countP (fun q => decide (q.votedFor = some targetId))) ∧
    ((∀ q ∈ players1, truthy q.votedFor = true) →
      targetId ∉ players1.map Player.id →
      topMult (tallyVotes players1) = 1 →
      topEntryId (tallyVotes players1) = some targetId →
      (voteHandler lobby callerId targetId).status = Status.game_over ∧
      (voteHandler lobby callerId targetId).winner = some Winner.killer) := by
  subst hp1
  refine ⟨⟨?_, ?_⟩, ?_, ?_⟩
  · by_cases hb : (mapFirst (pid callerId)
        (fun q => { q with votedFor := some targetId })
        lobby.players).all (fun q => truthy q.votedFor) = true
    · have hall := List.all_eq_true.mp hb
      rw [voteHandler_eq_resolve lobby callerId targetId p hst hp hall,
        resolveVotes_players]
    · have hb2 : (mapFirst (pid callerId)
          (fun q => { q with votedFor := some targetId })
          lobby.players).all (fun q => truthy q.votedFor) = false := by
        simpa using hb
      rw [voteHandler_no_resolve lobby callerId targetId p hst hp hb2]
  · rw [find?_mapFirst (pid callerId)
      (fun q => { q with votedFor := some targetId }) lobby.players
      (fun a h => h), hp]
    exact ⟨_, rfl, rfl⟩
  · intro hts
    exact tallyVotes_count _ targetId hts
  · intro hall hmem h1 h2
    have hne0 : lobby.players ≠ [] := by
      intro h0
      rw [h0] at hp
      simp at hp
    have hne : mapFirst (pid callerId)
        (fun q => { q with votedFor := some targetId }) lobby.players ≠ [] := by
      intro h0
      have hl := congrArg List.length h0
      rw [mapFirst_length] at hl
      exact hne0 (List.length_eq_zero.mp hl)
    have heq := voteHandler_eq_resolve lobby callerId targetId p hst hp hall
    have hmis : topEntryId (tallyVotes (mapFirst (pid callerId)
        (fun q => { q with votedFor := some targetId }) lobby.players)) ≠
        ((mapFirst (pid callerId)
          (fun q => { q with votedFor := some targetId })
          lobby.players).find? isKillerP).map Player.id := by
      rw [h2]
      cases hk : ((mapFirst (pid callerId)
          (fun q => { q with votedFor := some targetId })
          lobby.players).find? isKillerP).map Player.id with
      | none => simp
      | some kid =>
        obtain ⟨k, hk1, hk2⟩ : ∃ k, (mapFirst (pid callerId)
            (fun q => { q with votedFor := some targetId })
            lobby.players).find? isKillerP = some k ∧ k.id = kid := by
          cases hf : (mapFirst (pid callerId)
              (fun q => { q with votedFor := some targetId })
              lobby.players).find? isKillerP with
          | none => rw [hf] at hk; simp at hk
          | some k =>
            rw [hf] at hk
            exact ⟨k, rfl, by simpa using hk⟩
        have hkm : kid ∈ (mapFirst (pid callerId)
            (fun q => { q with votedFor := some targetId })
            lobby.players).map Player.id := by
          rw [← hk2]
          exact List.mem_map_of_mem Player.id (List.mem_of_find?_eq_some hk1)
        intro hc
        rw [Option.some.injEq] at hc
        rw [← hc] at hkm
        exact hmem hkm
    rw [heq, resolveVotes_fail _ hne hall (Or.inr hmis)]
    exact ⟨rfl, rfl⟩

/-- Claim C10 witness: both players vote for the string `ghost`, which is
no player's id; it is recorded verbatim, tallied with count 2, and being
the unique plurality target the lobby ends `game_over` with winner
`killer`. -/
theorem claim10_witness :
    ((voteHandler lobGhostVote ("B") ("ghost")).status = Status.game_over ∧
      (voteHandler lobGhostVote ("B") ("ghost")).winner =
        some Winner.killer) ∧
    (∃ q, ((voteHandler lobGhostVote ("B") ("ghost")).players.find?
      (pid ("B"))) = some q ∧ q.votedFor = some ("ghost")) :=
  ⟨(claim10_vote_unchecked lobGhostVote ("B") ("ghost")
      (mkP ("B") ("b") (some Role.witness) false none false) _
      (by decide) (by decide) rfl).2.2 (by decide) (by decide) (by decide)
      (by decide),
   by
    obtain ⟨⟨hpl, q, hq1, hq2⟩, _, _⟩ :=
      claim10_vote_unchecked lobGhostVote ("B") ("ghost")
        (mkP ("B") ("b") (some Role.witness) false none false) _
        (by decide) (by decide) rfl
    exact ⟨q, by rw [hpl]; exact hq1, hq2⟩⟩

/-! Claim theorems for role assignment at game start. -/

theorem startGame_eq (lobby : Lobby) (callerId : String)
    (roleRand : Nat → Nat) (uuid : Nat → String) (rx ry rt : Nat → Nat)
    (now : Int) (p : Player)
    (hp : lobby.players.find? (pid callerId) = some p)
    (hhost : p.isHost = true)
    (hlen : 3 ≤ lobby.players.length) :
    startGame lobby callerId roleRand uuid rx ry rt now =
      { lobby with
        players := assignRoles lobby.players roleRand
        tasks := generateTasks uuid rx ry rt
        status := Status.playing
        startTime := some now
        endTime := some (now + 5 * 60 * 1000) } := by
  unfold startGame
  rw [hp]
  simp only [hhost, if_true]
  rw [if_neg (by omega)]

theorem assignRoles_countP (players : List Player) (rand : Nat → Nat)
    (h3 : 3 ≤ players.length) (pr : Option Role → Bool) :
    (assignRoles players rand).countP (fun q => pr q.role) =
      (rolePool players.length).countP (fun r => pr (some r)) := by
  have hmap := assignRoles_map_role players rand h3
  have h1 : (assignRoles players rand).countP (fun q => pr q.role) =
      ((assignRoles players rand).map Player.role).countP pr := by
    rw [List.countP_map]
    rfl
  have h2 : ((shuffle (rolePool players.length) rand).map some).countP pr =
      (shuffle (rolePool players.length) rand).countP
        (fun r => pr (some r)) := by
    rw [List.countP_map]
    rfl
  rw [h1, hmap, h2]
  exact (shuffle_perm _ _).countP_eq _

theorem assignRoles_length (players : List Player) (rand : Nat → Nat) :
    (assignRoles players rand).length = players.length := by
  rw [assignRoles]
  exact zipRoles_length players _

/-- Claim C2: at game start (host caller, at least three players) the
assigned roles are a permutation of the fixed multiset determined by the
player count — `{killer, witness, investigator}` for three players,
`{killer, witness, forensics}` plus `n - 3` investigators for `n ≥ 4` — so
immediately after `startGame` exactly one player holds `killer`, at most
one holds `witness`, every player holds a role, and the status is
`playing` in the same atomic update (no intermediate state with roles
assigned but an earlier status, or conversely, is observable). -/
theorem claim2_role_assignment (lobby : Lobby) (callerId : String)
    (roleRand : Nat → Nat) (uuid : Nat → String) (rx ry rt : Nat → Nat)
    (now : Int) (p : Player)
    (hp : lobby.players.find? (pid callerId) = some p)
    (hhost : p.isHost = true)
    (hlen : 3 ≤ lobby.players.length) :
    (startGame lobby callerId roleRand uuid rx ry rt now).status =
      Status.playing ∧
    (↑((startGame lobby callerId roleRand uuid rx ry rt now).players.map
        Player.role) : Multiset (Option Role)) =
      (specRoleMultiset lobby.players.length).map some ∧
    (startGame lobby callerId roleRand uuid rx ry rt now).players.countP
      isKillerP = 1 ∧
    (startGame lobby callerId roleRand uuid rx ry rt now).players.countP
      (fun q => decide (q.role = some Role.witness)) ≤ 1 ∧
    (∀ q ∈ (startGame lobby callerId roleRand uuid rx ry rt now).players,
      q.role ≠ none) ∧
    (startGame lobby callerId roleRand uuid rx ry rt now).players.length =
      lobby.players.length := by
  rw [startGame_eq lobby callerId roleRand uuid rx ry rt now p hp hhost hlen]
  have hmap := assignRoles_map_role lobby.players roleRand hlen
  refine ⟨rfl, ?_, ?_, ?_, ?_, ?_⟩
  · show (↑((assignRoles lobby.players roleRand).map Player.role) :
      Multiset (Option Role)) = _
    rw [hmap, ← Multiset.map_coe]
    rw [Multiset.coe_eq_coe.mpr (shuffle_perm (rolePool lobby.players.length)
      roleRand)]
    rw [rolePool_multiset _ hlen]
  · show (assignRoles lobby.players roleRand).countP isKillerP = 1
    have h : (assignRoles lobby.players roleRand).countP isKillerP =
        (rolePool lobby.players.length).countP
          (fun r => decide (some r = some Role.killer)) :=
      assignRoles_countP lobby.players roleRand hlen
        (fun o => decide (o = some Role.killer))
    rw [h, rolePool_countP _ hlen]
    simp
  · show (assignRoles lobby.players roleRand).countP
      (fun q => decide (q.role = some Role.witness)) ≤ 1
    have h := assignRoles_countP lobby.players roleRand hlen
      (fun o => decide (o = some Role.witness))
    rw [h, rolePool_countP _ hlen]
    simp
  · show ∀ q ∈ assignRoles lobby.players roleRand, q.role ≠ none
    intro q hq
    have hmem : q.role ∈ (assignRoles lobby.players roleRand).map
        Player.role := List.mem_map_of_mem Player.role hq
    rw [hmap] at hmem
    obtain ⟨r, _, hr⟩ := List.mem_map.mp hmem
    rw [← hr]
    simp
  · exact assignRoles_length lobby.players roleRand

/-- Claim C2 witness: a concrete three-player lobby whose host starts the
game with a concrete random stream. -/
theorem claim2_witness :
    (startGame lobPre3 ("A") id (fun i => "t" ++ toString i) id id id
      0).status = Status.playing ∧
    (↑((startGame lobPre3 ("A") id (fun i => "t" ++ toString i) id id id
        0).players.map Player.role) : Multiset (Option Role)) =
      (specRoleMultiset 3).map some ∧
    (startGame lobPre3 ("A") id (fun i => "t" ++ toString i) id id id
      0).players.countP isKillerP = 1 :=
  have h := claim2_role_assignment lobPre3 ("A") id
    (fun i => "t" ++ toString i) id id id 0
    (mkP ("A") ("a") none true none false) (by decide) (by decide)
    (by decide)
  ⟨h.1, h.2.1, h.2.2.1⟩

/-! Claim theorems for clue generation from task completions. -/

/-- Claim C3, amended.  The source falls back to `lobby.players[0]` when
the preferred clue target does not exist, so the claim holds only with the
provisos that the lobby still contains the relevant target: a clue appended
by a non-killer's task completion has `isTampered = false` and describes
the killer provided a killer is in the player list; a clue appended by the
killer's task completion has `isTampered = true` and describes a non-killer
provided at least one non-killer is in the player list.  In the degenerate
lobbies (killer departed, or every non-killer departed) the fallback target
is `players[0]`. -/
theorem claim3_clue_targets (lobby : Lobby) (callerId taskId uuid : String)
    (r1 r2 r3 : Nat) (task : GameTask) (player : Player)
    (hst : lobby.status = Status.playing)
    (ht : lobby.tasks.find? (tidP taskId) = some task)
    (hc : task.completed = false)
    (hp : lobby.players.find? (pid callerId) = some player) :
    (player.role ≠ some Role.killer →
      ∀ k, lobby.players.find? isKillerP = some k →
      ∃ c, (taskCompleted lobby callerId taskId uuid r1 r2 r3).clues =
          lobby.clues ++ [c] ∧
        c.isTampered = false ∧ c.foundBy = player.id ∧
        c.text = clueTextOf k r2 r3 ∧ k.role = some Role.killer) ∧
    (player.role = some Role.killer →
      nonKillersOf lobby ≠ [] →
      ∃ c q, (taskCompleted lobby callerId taskId uuid r1 r2 r3).clues =
          lobby.clues ++ [c] ∧
        c.isTampered = true ∧ c.foundBy = player.id ∧
        q ∈ lobby.players ∧ q.role ≠ some Role.killer ∧
        c.text = clueTextOf q r2 r3) := by
  obtain ⟨tgt, htgt, heq⟩ := taskCompleted_spec lobby callerId taskId uuid
    r1 r2 r3 task player hst ht hc hp
  constructor
  · intro hrole k hk
    have hkt : isKillerP player = false := by simp [isKillerP, hrole]
    rw [hkt] at htgt heq
    have htk := clueTarget_killer lobby r1 k hk
    have htgtk : tgt = k := Option.some.inj (htgt.symm.trans htk)
    rw [htgtk] at heq
    have hkr : k.role = some Role.killer := by
      have := List.find?_some hk
      simpa [isKillerP] using this
    exact ⟨_, by rw [heq], rfl, rfl, rfl, hkr⟩
  · intro hrole hne
    have hkt : isKillerP player = true := by simp [isKillerP, hrole]
    rw [hkt] at htgt heq
    obtain ⟨q, hq, hqm, hqr⟩ := clueTarget_nonkiller lobby r1 hne
    have htgtq : tgt = q := Option.some.inj (htgt.symm.trans hq)
    rw [htgtq] at heq
    exact ⟨_, q, by rw [heq], rfl, rfl, hqm, hqr, rfl⟩

/-- Claim C3 counterexample, refuting the claim as frozen: in a playing
lobby whose only remaining player is the killer (the two non-killers left
mid-game via `leave_lobby`), the killer's task completion appends a clue
with `isTampered = true`, but the lobby contains no player whose role is
not killer, so the clue cannot describe a non-killer — the fallback makes
the tampered clue describe the killer's own attribute (`Left` handedness,
phrased `Southpaw`). -/
theorem claim3_counterexample :
    (taskCompleted lobKillerOnly ("K") ("T") ("u") 0 0 0).clues =
      [{ id := "u", text := "Southpaw", isTampered := true,
         foundBy := "K" }] ∧
    ¬(∃ q ∈ lobKillerOnly.players, q.role ≠ some Role.killer) := by
  decide

/-- Claim C3 witness: investigator A completes a task in a full lobby; the
appended clue is truthful and its text derives from the killer K. -/
theorem claim3_witness :
    ∃ c, (taskCompleted lobPlay3 ("A") ("T") ("u") 0 0 0).clues =
        lobPlay3.clues ++ [c] ∧
      c.isTampered = false ∧
      c.foundBy = (mkP ("A") ("a") (some Role.investigator) true none
        false).id ∧
      c.text = clueTextOf (mkP ("K") ("k") (some Role.killer) false none
        false) 0 0 ∧
      (mkP ("K") ("k") (some Role.killer) false none false).role =
        some Role.killer :=
  (claim3_clue_targets lobPlay3 ("A") ("T") ("u") 0 0 0 taskT
    (mkP ("A") ("a") (some Role.investigator) true none false)
    (by decide) (by decide) (by decide) (by decide)).1 (by decide)
    (mkP ("K") ("k") (some Role.killer) false none false) (by decide)

/-- Claim C6, amended.  The source flips `completed` before it looks the
caller up in the player list, so the flip and the clue append occur
together only when the calling connection is a player of the lobby; a
caller outside the player list flips the flag and appends nothing.  Under
that proviso the claim holds: the found task's flag becomes true and
exactly one clue is appended in the same step. -/
theorem claim6_task_clue (lobby : Lobby) (callerId taskId uuid : String)
    (r1 r2 r3 : Nat) (task : GameTask) (player : Player)
    (hst : lobby.status = Status.playing)
    (ht : lobby.tasks.find? (tidP taskId) = some task)
    (hc : task.completed = false)
    (hp : lobby.players.find? (pid callerId) = some player) :
    ∃ c, (taskCompleted lobby callerId taskId uuid r1 r2 r3).clues =
        lobby.clues ++ [c] ∧
      (taskCompleted lobby callerId taskId uuid r1 r2 r3).tasks =
        mapFirst (tidP taskId) (fun t => { t with completed := true })
          lobby.tasks ∧
      (taskCompleted lobby callerId taskId uuid r1 r2 r3).tasks.find?
        (tidP taskId) = some { task with completed := true } := by
  obtain ⟨tgt, htgt, heq⟩ := taskCompleted_spec lobby callerId taskId uuid
    r1 r2 r3 task player hst ht hc hp
  refine ⟨_, by rw [heq], by rw [heq], ?_⟩
  rw [heq]
  show (mapFirst (tidP taskId) (fun t => { t with completed := true })
    lobby.tasks).find? (tidP taskId) = some { task with completed := true }
  rw [find?_mapFirst (tidP taskId)
    (fun t => { t with completed := true }) lobby.tasks (fun a h => h), ht]
  rfl

/-- Claim C6 counterexample, refuting the claim as frozen: a
`task_completed` call from a connection that is not in the player list
("ghost") flips the task's `completed` flag yet appends no clue — the flip
happens without the append. -/
theorem claim6_counterexample :
    ((taskCompleted lobPlay3 ("ghost") ("T") ("u") 0 0 0).tasks.all
      (fun t => t.completed)) = true ∧
    (taskCompleted lobPlay3 ("ghost") ("T") ("u") 0 0 0).clues = [] := by
  decide

/-- Claim C6 witness: investigator A completes the task; the flag flips and
exactly one clue is appended. -/
theorem claim6_witness :
    ∃ c, (taskCompleted lobPlay3 ("A") ("T") ("u") 0 0 0).clues =
        lobPlay3.clues ++ [c] ∧
      (taskCompleted lobPlay3 ("A") ("T") ("u") 0 0 0).tasks =
        mapFirst (tidP ("T")) (fun t => { t with completed := true })
          lobPlay3.tasks ∧
      (taskCompleted lobPlay3 ("A") ("T") ("u") 0 0 0).tasks.find?
        (tidP ("T")) = some taskTdone :=
  claim6_task_clue lobPlay3 ("A") ("T") ("u") 0 0 0 taskT
    (mkP ("A") ("a") (some Role.investigator) true none false)
    (by decide) (by decide) (by decide) (by decide)

/-- Claim C7, amended.  With the same provisos as C6 (the first caller is a
player of the lobby, the task exists with `completed = false`), two
successive `task_completed` invocations on the same task id append exactly
one clue in total, the flag is true after the first and after the second
call, and the second call changes nothing at all. -/
theorem claim7_task_idempotent (lobby : Lobby)
    (callerId taskId uuid : String) (r1 r2 r3 : Nat)
    (callerId2 uuid2 : String) (s1 s2 s3 : Nat)
    (task : GameTask) (player : Player)
    (hst : lobby.status = Status.playing)
    (ht : lobby.tasks.find? (tidP taskId) = some task)
    (hc : task.completed = false)
    (hp : lobby.players.find? (pid callerId) = some player) :
    taskCompleted (taskCompleted lobby callerId taskId uuid r1 r2 r3)
      callerId2 taskId uuid2 s1 s2 s3 =
      taskCompleted lobby callerId taskId uuid r1 r2 r3 ∧
    (∃ c, (taskCompleted (taskCompleted lobby callerId taskId uuid r1 r2 r3)
      callerId2 taskId uuid2 s1 s2 s3).clues = lobby.clues ++ [c]) ∧
    (taskCompleted lobby callerId taskId uuid r1 r2 r3).tasks.find?
      (tidP taskId) = some { task with completed := true } ∧
    (taskCompleted (taskCompleted lobby callerId taskId uuid r1 r2 r3)
      callerId2 taskId uuid2 s1 s2 s3).tasks.find? (tidP taskId) =
      some { task with completed := true } := by
  obtain ⟨tgt, htgt, heq⟩ := taskCompleted_spec lobby callerId taskId uuid
    r1 r2 r3 task player hst ht hc hp
  have hfind : (taskCompleted lobby callerId taskId uuid r1 r2 r3).tasks.find?
      (tidP taskId) = some { task with completed := true } := by
    rw [heq]
    show (mapFirst (tidP taskId) (fun t => { t with completed := true })
      lobby.tasks).find? (tidP taskId) = some { task with completed := true }
    rw [find?_mapFirst (tidP taskId)
      (fun t => { t with completed := true }) lobby.tasks (fun a h => h), ht]
    rfl
  have hst1 : (taskCompleted lobby callerId taskId uuid r1 r2 r3).status =
      Status.playing := by rw [heq]; exact hst
  have h2 := taskCompleted_already
    (taskCompleted lobby callerId taskId uuid r1 r2 r3) callerId2 taskId
    uuid2 s1 s2 s3 { task with completed := true } hst1 hfind rfl
  refine ⟨h2, ⟨{ id := uuid, text := clueTextOf tgt r2 r3, isTampered := isKillerP player, foundBy := player.id }, ?_⟩, hfind, by rw [h2]; exact hfind⟩
  rw [h2, heq]

/-- Claim C7 counterexample, refuting the claim as frozen: two successive
`task_completed` invocations from a connection outside the player list
leave the flag true after both calls but append zero clues in total, not
exactly one. -/
theorem claim7_counterexample :
    (taskCompleted (taskCompleted lobPlay3 ("ghost") ("T") ("u") 0 0 0)
      ("ghost") ("T") ("u2") 0 0 0).clues = [] ∧
    ((taskCompleted (taskCompleted lobPlay3 ("ghost") ("T") ("u") 0 0 0)
      ("ghost") ("T") ("u2") 0 0 0).tasks.all (fun t => t.completed)) =
      true := by
  decide

/-- Claim C7 witness: investigator A completes the task twice; one clue in
total, flag true both times, second call a no-op. -/
theorem claim7_witness :
    taskCompleted (taskCompleted lobPlay3 ("A") ("T") ("u") 0 0 0)
      ("A") ("T") ("u2") 1 1 1 =
      taskCompleted lobPlay3 ("A") ("T") ("u") 0 0 0 ∧
    (∃ c, (taskCompleted (taskCompleted lobPlay3 ("A") ("T") ("u") 0 0 0)
      ("A") ("T") ("u2") 1 1 1).clues = lobPlay3.clues ++ [c]) ∧
    (taskCompleted lobPlay3 ("A") ("T") ("u") 0 0 0).tasks.find?
      (tidP ("T")) = some taskTdone ∧
    (taskCompleted (taskCompleted lobPlay3 ("A") ("T") ("u") 0 0 0)
      ("A") ("T") ("u2") 1 1 1).tasks.find? (tidP ("T")) =
      some taskTdone :=
  claim7_task_idempotent lobPlay3 ("A") ("T") ("u") 0 0 0 ("A") ("u2") 1 1 1
    taskT
    (mkP ("A") ("a") (some Role.investigator) true none false)
    (by decide) (by decide) (by decide) (by decide)

/-! Reductions of the steal handler. -/

theorem updateReg_self (reg : Registry) (code : String) (l : Lobby)
    (h : reg code = some l) : updateReg reg code (some l) = reg := by
  funext c
  rw [updateReg]
  by_cases hc : c = code
  · rw [if_pos hc, hc, h]
  · rw [if_neg hc]

theorem stealClue_err_status (lobby : Lobby) (callerId targetId : String)
    (rSel : Nat) (uuid : String) (r1 r2 r3 : Nat)
    (h : lobby.status ≠ Status.playing) :
    stealClue lobby callerId targetId rSel uuid r1 r2 r3 =
      (lobby, StealResult.error ("Game not active")) := by
  unfold stealClue
  rw [if_pos h]

theorem stealClue_err_nothief (lobby : Lobby) (callerId targetId : String)
    (rSel : Nat) (uuid : String) (r1 r2 r3 : Nat)
    (hst : lobby.status = Status.playing)
    (hp : lobby.players.find? (pid callerId) = none) :
    stealClue lobby callerId targetId rSel uuid r1 r2 r3 =
      (lobby, StealResult.error ("Only the killer can do this")) := by
  unfold stealClue
  rw [if_neg (by simp [hst]), hp]

theorem stealClue_err_role (lobby : Lobby) (callerId targetId : String)
    (rSel : Nat) (uuid : String) (r1 r2 r3 : Nat) (thief : Player)
    (hst : lobby.status = Status.playing)
    (hp : lobby.players.find? (pid callerId) = some thief)
    (hrole : thief.role ≠ some Role.killer) :
    stealClue lobby callerId targetId rSel uuid r1 r2 r3 =
      (lobby, StealResult.error ("Only the killer can do this")) := by
  unfold stealClue
  rw [if_neg (by simp [hst]), hp]
  simp only [if_pos hrole]

theorem stealClue_err_used (lobby : Lobby) (callerId targetId : String)
    (rSel : Nat) (uuid : String) (r1 r2 r3 : Nat) (thief : Player)
    (hst : lobby.status = Status.playing)
    (hp : lobby.players.find? (pid callerId) = some thief)
    (hrole : thief.role = some Role.killer)
    (hused : thief.hasStolenClue = true) :
    stealClue lobby callerId targetId rSel uuid r1 r2 r3 =
      (lobby, StealResult.error ("Already used steal ability")) := by
  unfold stealClue
  rw [if_neg (by simp [hst]), hp]
  simp only [if_neg (show ¬(thief.role ≠ some Role.killer) by simp [hrole]),
    hused, if_true]

theorem stealClue_err_target (lobby : Lobby) (callerId targetId : String)
    (rSel : Nat) (uuid : String) (r1 r2 r3 : Nat) (thief : Player)
    (hst : lobby.status = Status.playing)
    (hp : lobby.players.find? (pid callerId) = some thief)
    (hrole : thief.role = some Role.killer)
    (hused : thief.hasStolenClue = false)
    (htar : lobby.players.find? (pid targetId) = none) :
    stealClue lobby callerId targetId rSel uuid r1 r2 r3 =
      (lobby, StealResult.error ("Target not found")) := by
  unfold stealClue
  rw [if_neg (by simp [hst]), hp]
  simp only [if_neg (show ¬(thief.role ≠ some Role.killer) by simp [hrole]),
    hused, Bool.false_eq_true, if_false, htar]

theorem stealClue_tamper_eq (lobby : Lobby) (callerId targetId : String)
    (rSel : Nat) (uuid : String) (r1 r2 r3 : Nat) (thief target : Player)
    (hst : lobby.status = Status.playing)
    (hth : lobby.players.find? (pid callerId) = some thief)
    (hrole : thief.role = some Role.killer)
    (hstolen : thief.hasStolenClue = false)
    (htar : lobby.players.find? (pid targetId) = some target)
    (hpos : 0 < (lobby.clues.filter (truthfulBy targetId)).length) :
    stealClue lobby callerId targetId rSel uuid r1 r2 r3 =
      ({ lobby with
          clues := tamperNth lobby.clues targetId
            (rSel % (lobby.clues.filter (truthfulBy targetId)).length)
          players := mapFirst (pid callerId)
            (fun p => { p with hasStolenClue := true }) lobby.players },
       StealResult.message ("Clue from " ++ target.name ++ " tampered!")) := by
  unfold stealClue
  rw [if_neg (by simp [hst]), hth]
  simp only [if_neg (show ¬(thief.role ≠ some Role.killer) by simp [hrole]),
    hstolen, Bool.false_eq_true, if_false, htar]
  rw [if_pos hpos]

theorem stealClue_plant_eq (lobby : Lobby) (callerId targetId : String)
    (rSel : Nat) (uuid : String) (r1 r2 r3 : Nat) (thief target : Player)
    (hst : lobby.status = Status.playing)
    (hth : lobby.players.find? (pid callerId) = some thief)
    (hrole : thief.role = some Role.killer)
    (hstolen : thief.hasStolenClue = false)
    (htar : lobby.players.find? (pid targetId) = some target)
    (hzero : (lobby.clues.filter (truthfulBy targetId)).length = 0) :
    ∃ tgt, clueTarget lobby true r1 = some tgt ∧
      stealClue lobby callerId targetId rSel uuid r1 r2 r3 =
        ({ lobby with
            clues := lobby.clues ++
              [{ id := uuid
                 text := clueTextOf tgt r2 r3
                 isTampered := true
                 foundBy := targetId }]
            players := mapFirst (pid callerId)
              (fun p => { p with hasStolenClue := true }) lobby.players },
         StealResult.message ("Fake clue planted on " ++ target.name
           ++ "!")) := by
  have hne : lobby.players ≠ [] := by
    intro h0
    rw [h0] at hth
    simp at hth
  obtain ⟨tgt, htgt, hgen⟩ := generateClue_isSome lobby true r1 r2 r3 hne
  refine ⟨tgt, htgt, ?_⟩
  unfold stealClue
  rw [if_neg (by simp [hst]), hth]
  simp only [if_neg (show ¬(thief.role ≠ some Role.killer) by simp [hrole]),
    hstolen, Bool.false_eq_true, if_false, htar]
  rw [if_neg (by omega), hgen]

/-! Claim theorems for the steal ability. -/

/-- Claim C4: a steal invocation by the killer, with the one-shot flag
clear, the lobby playing and the target present, either flips `isTampered`
on one existing truthful clue attributed to the target (appending nothing,
length preserved) when such a clue exists, or appends exactly one new
tampered clue attributed to the target otherwise; in either branch the
caller's `hasStolenClue` becomes true and a confirmation message is
returned through the callback. -/
theorem claim4_steal_success (lobby : Lobby) (callerId targetId : String)
    (rSel : Nat) (uuid : String) (r1 r2 r3 : Nat) (thief target : Player)
    (hst : lobby.status = Status.playing)
    (hth : lobby.players.find? (pid callerId) = some thief)
    (hrole : thief.role = some Role.killer)
    (hstolen : thief.hasStolenClue = false)
    (htar : lobby.players.find? (pid targetId) = some target) :
    (0 < (lobby.clues.filter (truthfulBy targetId)).length →
      (∃ j, ∃ hj : j < lobby.clues.length,
        (lobby.clues.get ⟨j, hj⟩).foundBy = targetId ∧
        (lobby.clues.get ⟨j, hj⟩).isTampered = false ∧
        (stealClue lobby callerId targetId rSel uuid r1 r2 r3).1.clues =
          lobby.clues.set j
            { lobby.clues.get ⟨j, hj⟩ with isTampered := true }) ∧
      (stealClue lobby callerId targetId rSel uuid r1 r2 r3).1.clues.length =
        lobby.clues.length) ∧
    ((lobby.clues.filter (truthfulBy targetId)).length = 0 →
      ∃ text, (stealClue lobby callerId targetId rSel uuid r1 r2 r3).1.clues =
        lobby.clues ++
          [{ id := uuid
             text := text
             isTampered := true
             foundBy := targetId }]) ∧
    (∃ q, (stealClue lobby callerId targetId rSel uuid r1 r2
        r3).1.players.find? (pid callerId) = some q ∧
      q.hasStolenClue = true) ∧
    (∃ m, (stealClue lobby callerId targetId rSel uuid r1 r2 r3).2 =
      StealResult.message m) := by
  have hfmf : (mapFirst (pid callerId)
      (fun p => { p with hasStolenClue := true })
      lobby.players).find? (pid callerId) =
      some { thief with hasStolenClue := true } := by
    rw [find?_mapFirst (pid callerId)
      (fun p => { p with hasStolenClue := true }) lobby.players
      (fun a h => h), hth]
    rfl
  refine ⟨?_, ?_, ?_, ?_⟩
  · intro hpos
    have heq := stealClue_tamper_eq lobby callerId targetId rSel uuid r1 r2
      r3 thief target hst hth hrole hstolen htar hpos
    have hlt : rSel % (lobby.clues.filter (truthfulBy targetId)).length <
        (lobby.clues.filter (truthfulBy targetId)).length :=
      Nat.mod_lt _ hpos
    obtain ⟨j, hj, hpred, heqn⟩ := tamperNth_spec lobby.clues targetId _ hlt
    have hpred2 := hpred
    simp only [truthfulBy, decide_eq_true_eq] at hpred2
    refine ⟨⟨j, hj, hpred2.1, hpred2.2, ?_⟩, ?_⟩
    · rw [heq]
      exact heqn
    · rw [heq]
      show (tamperNth lobby.clues targetId _).length = lobby.clues.length
      rw [heqn, List.length_set]
  · intro hzero
    obtain ⟨tgt, htgt, heq⟩ := stealClue_plant_eq lobby callerId targetId
      rSel uuid r1 r2 r3 thief target hst hth hrole hstolen htar hzero
    exact ⟨clueTextOf tgt r2 r3, by rw [heq]⟩
  · by_cases hpos : 0 < (lobby.clues.filter (truthfulBy targetId)).length
    · have heq := stealClue_tamper_eq lobby callerId targetId rSel uuid r1
        r2 r3 thief target hst hth hrole hstolen htar hpos
      rw [heq]
      exact ⟨_, hfmf, rfl⟩
    · have hzero : (lobby.clues.filter (truthfulBy targetId)).length = 0 :=
        by omega
      obtain ⟨tgt, htgt, heq⟩ := stealClue_plant_eq lobby callerId targetId
        rSel uuid r1 r2 r3 thief target hst hth hrole hstolen htar hzero
      rw [heq]
      exact ⟨_, hfmf, rfl⟩
  · by_cases hpos : 0 < (lobby.clues.filter (truthfulBy targetId)).length
    · have heq := stealClue_tamper_eq lobby callerId targetId rSel uuid r1
        r2 r3 thief target hst hth hrole hstolen htar hpos
      exact ⟨_, by rw [heq]⟩
    · have hzero : (lobby.clues.filter (truthfulBy targetId)).length = 0 :=
        by omega
      obtain ⟨tgt, htgt, heq⟩ := stealClue_plant_eq lobby callerId targetId
        rSel uuid r1 r2 r3 thief target hst hth hrole hstolen htar hzero
      exact ⟨_, by rw [heq]⟩

/-- Claim C4 witness: killer K steals from target A, who holds two truthful
clues; one of them is flipped in place, the caller's flag is set, and a
message is returned. -/
theorem claim4_witness :
    ((∃ j, ∃ hj : j < lobSteal.clues.length,
      (lobSteal.clues.get ⟨j, hj⟩).foundBy = "A" ∧
      (lobSteal.clues.get ⟨j, hj⟩).isTampered = false ∧
      (stealClue lobSteal ("K") ("A") 1 ("u") 0 0 0).1.clues =
        lobSteal.clues.set j
          { lobSteal.clues.get ⟨j, hj⟩ with isTampered := true }) ∧
      (stealClue lobSteal ("K") ("A") 1 ("u") 0 0 0).1.clues.length =
        lobSteal.clues.length) ∧
    (∃ q, (stealClue lobSteal ("K") ("A") 1 ("u") 0 0 0).1.players.find?
        (pid ("K")) = some q ∧ q.hasStolenClue = true) ∧
    (∃ m, (stealClue lobSteal ("K") ("A") 1 ("u") 0 0 0).2 =
      StealResult.message m) :=
  have h := claim4_steal_success lobSteal ("K") ("A") 1 ("u") 0 0 0
    (mkP ("K") ("k") (some Role.killer) false none false)
    (mkP ("A") ("a") (some Role.investigator) true none false)
    (by decide) (by decide) (by decide) (by decide) (by decide)
  ⟨h.1 (by decide), h.2.2.1, h.2.2.2⟩

/-- Claim C5: every failed steal precondition — missing lobby or status not
playing, caller absent or not the killer, one-shot flag already spent, or
target id absent — answers the callback with the corresponding error
(`AlreadyUsed` on a second use by the same killer included) and leaves the
whole registry, hence every lobby, clue and player field, unchanged. -/
theorem claim5_steal_failure (reg : Registry)
    (lobbyId callerId targetId : String) (rSel : Nat) (uuid : String)
    (r1 r2 r3 : Nat) :
    (reg lobbyId = none →
      stealClueReg reg lobbyId callerId targetId rSel uuid r1 r2 r3 =
        (reg, StealResult.error ("Game not active"))) ∧
    (∀ l, reg lobbyId = some l → l.status ≠ Status.playing →
      stealClueReg reg lobbyId callerId targetId rSel uuid r1 r2 r3 =
        (reg, StealResult.error ("Game not active"))) ∧
    (∀ l, reg lobbyId = some l → l.status = Status.playing →
      l.players.find? (pid callerId) = none →
      stealClueReg reg lobbyId callerId targetId rSel uuid r1 r2 r3 =
        (reg, StealResult.error ("Only the killer can do this"))) ∧
    (∀ l p, reg lobbyId = some l → l.status = Status.playing →
      l.players.find? (pid callerId) = some p →
      p.role ≠ some Role.killer →
      stealClueReg reg lobbyId callerId targetId rSel uuid r1 r2 r3 =
        (reg, StealResult.error ("Only the killer can do this"))) ∧
    (∀ l p, reg lobbyId = some l → l.status = Status.playing →
      l.players.find? (pid callerId) = some p →
      p.role = some Role.killer → p.hasStolenClue = true →
      stealClueReg reg lobbyId callerId targetId rSel uuid r1 r2 r3 =
        (reg, StealResult.error ("Already used steal ability"))) ∧
    (∀ l p, reg lobbyId = some l → l.status = Status.playing →
      l.players.find? (pid callerId) = some p →
      p.role = some Role.killer → p.hasStolenClue = false →
      l.players.find? (pid targetId) = none →
      stealClueReg reg lobbyId callerId targetId rSel uuid r1 r2 r3 =
        (reg, StealResult.error ("Target not found"))) := by
  refine ⟨?_, ?_, ?_, ?_, ?_, ?_⟩
  · intro h
    unfold stealClueReg
    rw [h]
  · intro l hl hst
    unfold stealClueReg
    rw [hl]
    simp only [stealClue_err_status l callerId targetId rSel uuid r1 r2 r3
      hst]
    rw [updateReg_self reg lobbyId l hl]
  · intro l hl hst hp
    unfold stealClueReg
    rw [hl]
    simp only [stealClue_err_nothief l callerId targetId rSel uuid r1 r2 r3
      hst hp]
    rw [updateReg_self reg lobbyId l hl]
  · intro l p hl hst hp hrole
    unfold stealClueReg
    rw [hl]
    simp only [stealClue_err_role l callerId targetId rSel uuid r1 r2 r3 p
      hst hp hrole]
    rw [updateReg_self reg lobbyId l hl]
  · intro l p hl hst hp hrole hused
    unfold stealClueReg
    rw [hl]
    simp only [stealClue_err_used l callerId targetId rSel uuid r1 r2 r3 p
      hst hp hrole hused]
    rw [updateReg_self reg lobbyId l hl]
  · intro l p hl hst hp hrole hused htar
    unfold stealClueReg
    rw [hl]
    simp only [stealClue_err_target l callerId targetId rSel uuid r1 r2 r3 p
      hst hp hrole hused htar]
    rw [updateReg_self reg lobbyId l hl]

/-- Claim C5 witness: the killer K, having already spent the steal ability,
tries again — the callback receives `Already used steal ability` and the
registry is unchanged. -/
theorem claim5_witness :
    stealClueReg (regOf ("L") lobStealUsed) ("L") ("K") ("A") 0 ("u") 0 0 0 =
      (regOf ("L") lobStealUsed,
        StealResult.error ("Already used steal ability")) :=
  (claim5_steal_failure (regOf ("L") lobStealUsed) ("L") ("K") ("A") 0 ("u")
    0 0 0).2.2.2.2.1 lobStealUsed
    (mkP ("K") ("k") (some Role.killer) false none true)
    (by decide) (by decide) (by decide) (by decide) (by decide)

/-! Reductions of the membership handlers. -/

theorem updateReg_at (reg : Registry) (code : String) (v : Option Lobby) :
    updateReg reg code v code = v := by
  show (if code = code then v else reg code) = v
  rw [if_pos rfl]

theorem createLobby_at (reg : Registry) (code sid name : String)
    (attrs : Attributes) :
    (createLobby reg code sid name attrs).1 code =
      some { id := code
             status := Status.lobby
             players := [{ id := sid
                           name := name
                           role := none
                           attributes := attrs
                           isHost := true
                           votedFor := none
                           x := 1000
                           y := 1000
                           color := playerColorsTable.getD 0 ("")
                           hasStolenClue := false }]
             clues := []
             tasks := []
             startTime := none
             endTime := none
             winner := none } := by
  show updateReg reg code _ code = _
  rw [updateReg_at]

theorem joinLobby_err_progress (reg : Registry)
    (code sid name : String) (attrs : Attributes) (dx dy : Int) (l : Lobby)
    (hl : reg code = some l) (hstat : l.status ≠ Status.lobby) :
    joinLobby reg code sid name attrs dx dy =
      (reg, JoinResult.error ("Game already in progress")) := by
  unfold joinLobby
  rw [hl]
  simp only [if_pos hstat]

theorem joinLobby_ok (reg : Registry) (code sid name : String)
    (attrs : Attributes) (dx dy : Int) (l : Lobby)
    (hl : reg code = some l) (hstat : ¬(l.status ≠ Status.lobby)) :
    joinLobby reg code sid name attrs dx dy =
      (updateReg reg code (some { l with players := l.players ++
        [joinedPlayer l sid name attrs dx dy] }),
       JoinResult.ok code sid) := by
  unfold joinLobby
  rw [hl]
  simp only [if_neg hstat]

theorem leaveReg_nofind (reg : Registry) (code sid : String) (l : Lobby)
    (hl : reg code = some l)
    (hidx : l.players.findIdx? (pid sid) = none) :
    leaveLobbyReg reg code sid = reg := by
  unfold leaveLobbyReg
  rw [hl]
  simp only [hidx]

theorem leaveReg_empty (reg : Registry) (code sid : String) (l : Lobby)
    (i : Nat) (hl : reg code = some l)
    (hidx : l.players.findIdx? (pid sid) = some i)
    (hlen : (l.players.eraseIdx i).length = 0) :
    leaveLobbyReg reg code sid = updateReg reg code none := by
  unfold leaveLobbyReg
  rw [hl]
  simp only [hidx, if_pos hlen]

theorem leaveReg_promote (reg : Registry) (code sid : String) (l : Lobby)
    (i : Nat) (hl : reg code = some l)
    (hidx : l.players.findIdx? (pid sid) = some i)
    (hlen : ¬((l.players.eraseIdx i).length = 0))
    (hstat : l.status = Status.lobby) :
    leaveLobbyReg reg code sid = updateReg reg code
      (some { l with players := setHeadHost (l.players.eraseIdx i) }) := by
  unfold leaveLobbyReg
  rw [hl]
  simp only [hidx, if_neg hlen, if_pos hstat]

theorem leaveReg_midgame (reg : Registry) (code sid : String) (l : Lobby)
    (i : Nat) (hl : reg code = some l)
    (hidx : l.players.findIdx? (pid sid) = some i)
    (hlen : ¬((l.players.eraseIdx i).length = 0))
    (hstat : ¬(l.status = Status.lobby)) :
    leaveLobbyReg reg code sid = updateReg reg code
      (some { l with players := l.players.eraseIdx i }) := by
  unfold leaveLobbyReg
  rw [hl]
  simp only [hidx, if_neg hlen, if_neg hstat]

theorem disconnectReg_nofind (reg : Registry) (sid code : String)
    (l : Lobby) (hl : reg code = some l)
    (hidx : l.players.findIdx? (pid sid) = none) :
    (disconnectReg reg sid) code = some l := by
  show (match reg code with
    | none => none
    | some lobby =>
      match lobby.players.findIdx? (pid sid) with
      | none => some lobby
      | some i =>
        if lobby.status = Status.lobby then
          let players := lobby.players.eraseIdx i
          if players.length = 0 then none
          else some { lobby with players := setHeadHost players }
        else some lobby) = some l
  rw [hl]
  simp only [hidx]

theorem disconnectReg_midgame (reg : Registry) (sid code : String)
    (l : Lobby) (i : Nat) (hl : reg code = some l)
    (hidx : l.players.findIdx? (pid sid) = some i)
    (hstat : ¬(l.status = Status.lobby)) :
    (disconnectReg reg sid) code = some l := by
  show (match reg code with
    | none => none
    | some lobby =>
      match lobby.players.findIdx? (pid sid) with
      | none => some lobby
      | some i =>
        if lobby.status = Status.lobby then
          let players := lobby.players.eraseIdx i
          if players.length = 0 then none
          else some { lobby with players := setHeadHost players }
        else some lobby) = some l
  rw [hl]
  simp only [hidx, if_neg hstat]

theorem disconnectReg_lobby (reg : Registry) (sid code : String)
    (l : Lobby) (i : Nat) (hl : reg code = some l)
    (hidx : l.players.findIdx? (pid sid) = some i)
    (hstat : l.status = Status.lobby) :
    (disconnectReg reg sid) code =
      (if (l.players.eraseIdx i).length = 0 then none
       else some { l with players := setHeadHost (l.players.eraseIdx i) }) := by
  show (match reg code with
    | none => none
    | some lobby =>
      match lobby.players.findIdx? (pid sid) with
      | none => some lobby
      | some i =>
        if lobby.status = Status.lobby then
          let players := lobby.players.eraseIdx i
          if players.length = 0 then none
          else some { lobby with players := setHeadHost players }
        else some lobby) = _
  rw [hl]
  simp only [hidx, if_pos hstat]

/-! Claim theorems for player-id uniqueness. -/

/-- Claim C8, amended.  `join_lobby` never checks whether the joining
connection is already a member, so uniqueness of player ids is preserved by
create, leave and disconnect unconditionally, and by join only when the
joining connection id is not already present; a join by an already-present
connection appends a second entry with the same id. -/
theorem claim8_id_unique :
    (∀ (reg : Registry) (code sid name : String) (attrs : Attributes)
      (l : Lobby), (createLobby reg code sid name attrs).1 code = some l →
      (l.players.map Player.id).Nodup) ∧
    (∀ (reg : Registry) (code sid name : String) (attrs : Attributes)
      (dx dy : Int) (l l2 : Lobby), reg code = some l →
      (l.players.map Player.id).Nodup →
      sid ∉ l.players.map Player.id →
      (joinLobby reg code sid name attrs dx dy).1 code = some l2 →
      (l2.players.map Player.id).Nodup) ∧
    (∀ (reg : Registry) (code sid : String) (l l2 : Lobby),
      reg code = some l → (l.players.map Player.id).Nodup →
      (leaveLobbyReg reg code sid) code = some l2 →
      (l2.players.map Player.id).Nodup) ∧
    (∀ (reg : Registry) (code sid : String) (l l2 : Lobby),
      reg code = some l → (l.players.map Player.id).Nodup →
      (disconnectReg reg sid) code = some l2 →
      (l2.players.map Player.id).Nodup) := by
  refine ⟨?_, ?_, ?_, ?_⟩
  · intro reg code sid name attrs l h
    rw [createLobby_at] at h
    rw [← Option.some.inj h]
    simp
  · intro reg code sid name attrs dx dy l l2 hl hnd hmem h2
    by_cases hstat : l.status ≠ Status.lobby
    · rw [joinLobby_err_progress reg code sid name attrs dx dy l hl hstat]
        at h2
      have h3 : reg code = some l2 := h2
      rw [hl] at h3
      rw [← Option.some.inj h3]
      exact hnd
    · rw [joinLobby_ok reg code sid name attrs dx dy l hl hstat] at h2
      have h3 : updateReg reg code (some { l with players := l.players ++
        [joinedPlayer l sid name attrs dx dy] }) code = some l2 := h2
      rw [updateReg_at] at h3
      rw [← Option.some.inj h3]
      simp only [List.map_append, List.map_cons, List.map_nil]
      have hperm := List.perm_append_singleton
        (joinedPlayer l sid name attrs dx dy).id (l.players.map Player.id)
      rw [hperm.nodup_iff, List.nodup_cons]
      exact ⟨hmem, hnd⟩
  · intro reg code sid l l2 hl hnd h2
    have hsub : ∀ i, ((l.players.eraseIdx i).map Player.id).Nodup :=
      fun i => hnd.sublist ((List.eraseIdx_sublist l.players i).map Player.id)
    cases hidx : l.players.findIdx? (pid sid) with
    | none =>
      rw [leaveReg_nofind reg code sid l hl hidx, hl] at h2
      rw [← Option.some.inj h2]
      exact hnd
    | some i =>
      by_cases hlen : (l.players.eraseIdx i).length = 0
      · rw [leaveReg_empty reg code sid l i hl hidx hlen, updateReg_at] at h2
        exact absurd h2 (by simp)
      · by_cases hstat : l.status = Status.lobby
        · rw [leaveReg_promote reg code sid l i hl hidx hlen hstat,
            updateReg_at] at h2
          rw [← Option.some.inj h2]
          simpa [setHeadHost_map_id] using hsub i
        · rw [leaveReg_midgame reg code sid l i hl hidx hlen hstat,
            updateReg_at] at h2
          rw [← Option.some.inj h2]
          exact hsub i
  · intro reg code sid l l2 hl hnd h2
    have hsub : ∀ i, ((l.players.eraseIdx i).map Player.id).Nodup :=
      fun i => hnd.sublist ((List.eraseIdx_sublist l.players i).map Player.id)
    cases hidx : l.players.findIdx? (pid sid) with
    | none =>
      rw [disconnectReg_nofind reg sid code l hl hidx] at h2
      rw [← Option.some.inj h2]
      exact hnd
    | some i =>
      by_cases hstat : l.status = Status.lobby
      · rw [disconnectReg_lobby reg sid code l i hl hidx hstat] at h2
        by_cases hlen : (l.players.eraseIdx i).length = 0
        · rw [if_pos hlen] at h2
          exact absurd h2 (by simp)
        · rw [if_neg hlen] at h2
          rw [← Option.some.inj h2]
          simpa [setHeadHost_map_id] using hsub i
      · rw [disconnectReg_midgame reg sid code l i hl hidx hstat] at h2
        rw [← Option.some.inj h2]
        exact hnd

/-- Claim C8 counterexample, refuting the claim as frozen: connection `A`
is already the sole member of the lobby; a second `join_lobby` by the same
connection appends a second entry with id `A` (name-disambiguated to
`Alex 1`), so the players list no longer has unique session-connection
ids. -/
theorem claim8_counterexample :
    ((joinLobby (regOf ("L") lobSoloA) ("L") ("A") ("Alex") attrs0 0 0).1
      ("L")).map (fun l => l.players.map Player.id) = some (["A", "A"]) ∧
    ¬(["A", "A"] : List String).Nodup := by
  constructor
  · decide
  · decide

/-- Claim C8 witness: a join by a fresh connection id preserves uniqueness
of player ids. -/
theorem claim8_witness :
    ∃ l2, (joinLobby (regOf ("L") lobSoloA) ("L") ("B") ("Bea") attrs0 0
        0).1 ("L") = some l2 ∧ (l2.players.map Player.id).Nodup := by
  cases hres : (joinLobby (regOf ("L") lobSoloA) ("L") ("B") ("Bea") attrs0
      0 0).1 ("L") with
  | none => exact absurd hres (by decide)
  | some l2 =>
    exact ⟨l2, rfl, claim8_id_unique.2.1 (regOf ("L") lobSoloA) ("L") ("B")
      ("Bea") attrs0 0 0 lobSoloA l2 (by decide) (by decide) (by decide)
      hres⟩

/-! Claim theorems for leaving and disconnecting. -/

/-- Claim C9, amended.  Removing the host via `leave` from a lobby in
`lobby` status with at least two remaining players promotes the
lowest-index remaining player, keeping exactly one host.  Removing a
player via `leave` while `playing` does not reassign host and leaves the
clue list (clues attributed to the leaver included) untouched, but —
contrary to the frozen claim — it removes that player's entry, and with it
their recorded `role` and `votedFor`, from the players list; it is the
`disconnect` path that leaves everything in place during `playing`. -/
theorem claim9_leave (reg : Registry) (code callerId : String) :
    (∀ (lobby : Lobby) (i : Nat) (pl : Player), reg code = some lobby →
      lobby.status = Status.lobby →
      lobby.players.findIdx? (pid callerId) = some i →
      lobby.players.get? i = some pl → pl.isHost = true →
      lobby.players.countP (fun q => q.isHost) = 1 →
      2 ≤ (lobby.players.eraseIdx i).length →
      ∃ h0 rest, lobby.players.eraseIdx i = h0 :: rest ∧
        (leaveLobbyReg reg code callerId) code =
          some { lobby with
            players := { h0 with isHost := true } :: rest } ∧
        ({ h0 with isHost := true } :: rest).countP (fun q => q.isHost) =
          1) ∧
    (∀ (lobby : Lobby) (i : Nat), reg code = some lobby →
      lobby.status = Status.playing →
      lobby.players.findIdx? (pid callerId) = some i →
      0 < (lobby.players.eraseIdx i).length →
      (leaveLobbyReg reg code callerId) code =
        some { lobby with players := lobby.players.eraseIdx i } ∧
      ({ lobby with players := lobby.players.eraseIdx i }).clues =
        lobby.clues) ∧
    (∀ (lobby : Lobby), reg code = some lobby →
      lobby.status = Status.playing →
      (disconnectReg reg callerId) code = some lobby) := by
  refine ⟨?_, ?_, ?_⟩
  · intro lobby i pl hl hstat hidx hpl hhost hcount hlen
    cases herase : lobby.players.eraseIdx i with
    | nil => rw [herase] at hlen; simp at hlen
    | cons h0 rest =>
      have hcount0 : (lobby.players.eraseIdx i).countP
          (fun q => q.isHost) = 0 := by
        have := countP_eraseIdx_of_true (fun q => q.isHost) lobby.players i
          pl hpl hhost
        omega
      refine ⟨h0, rest, rfl, ?_, ?_⟩
      · rw [leaveReg_promote reg code callerId lobby i hl hidx
          (by rw [herase]; simp) hstat, updateReg_at, herase]
        rfl
      · exact setHeadHost_countP_host (h0 :: rest)
          (by rw [← herase]; exact hcount0) (by simp)
  · intro lobby i hl hstat hidx hlen
    refine ⟨?_, rfl⟩
    rw [leaveReg_midgame reg code callerId lobby i hl hidx (by omega)
      (by simp [hstat]), updateReg_at]
  · intro lobby hl hstat
    cases hidx : lobby.players.findIdx? (pid callerId) with
    | none => exact disconnectReg_nofind reg callerId code lobby hl hidx
    | some i =>
      exact disconnectReg_midgame reg callerId code lobby i hl hidx
        (by simp [hstat])

/-- Claim C9 counterexample, refuting the frozen claim's second half: the
killer K leaves via `leave_lobby` while the lobby is `playing`; K's entry —
and with it K's recorded role and votedFor — is removed from the players
list, where the claim says the player's recorded data remains in place. -/
theorem claim9_counterexample :
    ((leaveLobbyReg (regOf ("L") lobPlay3) ("L") ("K")) ("L")).map
      (fun l => l.players.map Player.id) = some (["A", "W"]) ∧
    ((leaveLobbyReg (regOf ("L") lobPlay3) ("L") ("K")) ("L")).map
      (fun l => l.players.any (fun q => decide (q.id = "K"))) =
      some false := by
  constructor
  · decide
  · decide

/-- Claim C9 witness: host A leaves a three-player lobby still in `lobby`
status; the lowest-index remaining player is promoted and exactly one host
remains. -/
theorem claim9_witness :
    ∃ h0 rest, lobPre3.players.eraseIdx 0 = h0 :: rest ∧
      (leaveLobbyReg (regOf ("L") lobPre3) ("L") ("A")) ("L") =
        some { lobPre3 with
          players := { h0 with isHost := true } :: rest } ∧
      ({ h0 with isHost := true } :: rest).countP (fun q => q.isHost) = 1 :=
  (claim9_leave (regOf ("L") lobPre3) ("L") ("A")).1 lobPre3 0
    (mkP ("A") ("a") none true none false) (by decide) (by decide)
    (by decide) (by decide) (by decide) (by decide) (by decide)

end Midnight

